import Mathlib

/-!
Shallow embedding of the NiceGUIMQTT telemetry state engine.

The embedding translates the Python modules `state.py`, `mqtt_handler.py`,
`sensor_config.py`, `pages/dashboard_page.py` and `pages/selector_page.py`
into pure Lean functions over an explicit state record.

Modelling conventions:
* Python floats are modelled as exact rationals (`ℚ`); no claim under
  consideration depends on binary floating-point rounding.
* MQTT topic strings are modelled pre-split on `/` (the code only ever
  inspects `topic.split('/')`).
* A JSON payload is modelled as the association list produced by a
  successful `json.loads`, with `none` standing for a decode failure.
* Python `dict`s are modelled as insertion-ordered association lists;
  assignment updates an existing key in place or appends a new one,
  exactly like CPython dicts.
* `collections.deque(maxlen=N)` is modelled by a list together with the
  bounded append `dappend` that drops the oldest element when full.
* UI rendering (labels, Plotly figures, notifications) is omitted; only
  the state-mutating head of each page handler is modelled.
-/

/-- Association-list lookup, modelling Python `dict.get`. -/
def alookup {α : Type} : List (String × α) → String → Option α
  | [], _ => none
  | p :: t, k => if p.1 = k then some p.2 else alookup t k

/-- Key-membership test, modelling Python `k in d`. -/
def hasKey {α : Type} (m : List (String × α)) (k : String) : Bool :=
  m.any (fun p => decide (p.1 = k))

/-- Association-list assignment, modelling Python `d[k] = v`: update the
existing entry in place, or append a new entry at the end. -/
def aset {α : Type} (m : List (String × α)) (k : String) (v : α) : List (String × α) :=
  if hasKey m k then
    m.map (fun p => if p.1 = k then (p.1, v) else p)
  else m ++ [(k, v)]

/-- SAMPLE_HZ from state.py. -/
def SAMPLE_HZ : Nat := 4

/-- SAMPLE_PERIOD_S from state.py: 1.0 / SAMPLE_HZ. -/
def SAMPLE_PERIOD_S : ℚ := 1 / 4

/-- WINDOW_S from state.py. -/
def WINDOW_S : ℚ := 60

/-- MAX_POINTS from state.py: int(WINDOW_S * SAMPLE_HZ + 10) = 250. -/
def MAX_POINTS : Nat := 250

/-- SENSOR_STALE_S from state.py. -/
def SENSOR_STALE_S : ℚ := 5

/-- EQ_PREFIX from state.py: the fixed topic root. -/
def eqRoot : String := "EQ1"

/-- Bounded append of a `deque(maxlen=MAX_POINTS)`: when the buffer is
full the oldest element is dropped. -/
def dappend {α : Type} (xs : List α) (x : α) : List α :=
  if xs.length < MAX_POINTS then xs ++ [x] else xs.drop 1 ++ [x]

/-- A dynamically-typed Python/JSON value as far as the coercion helpers
`_to_float`/`_to_int` observe it.  A string value is abstracted by the
results of Python `int(s)` and `float(s)` on it; `vother` stands for any
value on which both raise. -/
inductive PyVal where
  | vnull
  | vint (n : Int)
  | vfloat (q : ℚ)
  | vstr (intParse : Option Int) (floatParse : Option ℚ)
  | vother
deriving DecidableEq

/-- Truncation toward zero, modelling Python `int(float)`. -/
def ratTrunc (q : ℚ) : Int := if 0 ≤ q then ⌊q⌋ else ⌈q⌉

/-- `_to_float` from mqtt_handler.py. -/
def pyFloat : PyVal → Option ℚ
  | .vnull => none
  | .vint n => some (n : ℚ)
  | .vfloat q => some q
  | .vstr _ fp => fp
  | .vother => none

/-- `_to_int` from mqtt_handler.py: `int(v)`, falling back to
`int(float(v))`, returning `None` when both fail. -/
def pyInt : PyVal → Option Int
  | .vnull => none
  | .vint n => some n
  | .vfloat q => some (ratTrunc q)
  | .vstr ip fp =>
    match ip with
    | some n => some n
    | none => fp.map ratTrunc
  | .vother => none

/-- One entry of a profile's `metrics` list in sensor_config.py
(display-only metadata omitted). -/
structure MetricDef where
  id : String
  json_key : String
  scale : ℚ
  default_enabled : Bool
deriving DecidableEq

/-- One value of `SENSOR_TYPES` (or the default profile) in
sensor_config.py. -/
structure SensorProfile where
  required_keys : List String
  metrics : List MetricDef
  avg_dropped_key : Option String
  sample_period_s : Option ℚ := none
deriving DecidableEq

/-- SENSOR_TYPES["Mov"] from sensor_config.py. -/
def movProfile : SensorProfile :=
  { required_keys := ["t_ms", "cm", "v_cm_s", "a_cm_s2"]
    metrics :=
      [ { id := "dist_m", json_key := "cm", scale := 1/100, default_enabled := true }
      , { id := "vel_m_s", json_key := "v_cm_s", scale := 1/100, default_enabled := false }
      , { id := "acc_m_s2", json_key := "a_cm_s2", scale := 1/100, default_enabled := false } ]
    avg_dropped_key := none }

/-- SENSOR_TYPES["Gyro"] from sensor_config.py. -/
def gyroProfile : SensorProfile :=
  { required_keys := ["t_ms", "temp_c", "ax", "ay", "az", "gx", "gy", "gz"]
    metrics :=
      [ { id := "temp_c", json_key := "temp_c", scale := 1, default_enabled := true }
      , { id := "ax", json_key := "ax", scale := 1, default_enabled := true }
      , { id := "ay", json_key := "ay", scale := 1, default_enabled := false }
      , { id := "az", json_key := "az", scale := 1, default_enabled := false }
      , { id := "gx", json_key := "gx", scale := 1, default_enabled := false }
      , { id := "gy", json_key := "gy", scale := 1, default_enabled := false }
      , { id := "gz", json_key := "gz", scale := 1, default_enabled := false } ]
    avg_dropped_key := none }

/-- SENSOR_TYPES["Lux"] from sensor_config.py. -/
def luxProfile : SensorProfile :=
  { required_keys := ["t_ms", "Lux"]
    metrics := [ { id := "Lux", json_key := "Lux", scale := 1, default_enabled := true } ]
    avg_dropped_key := none }

/-- DEFAULT_TYPE_PROFILE from sensor_config.py. -/
def defaultProfile : SensorProfile :=
  { required_keys := ["t_ms"], metrics := [], avg_dropped_key := some "avg_dropped" }

/-- `sensor_type` from sensor_config.py: strip a leading "Sensor". -/
def sensor_type (sensor_name : String) : String :=
  if sensor_name.data.take 6 = "Sensor".data ∧ sensor_name.length > 6 then
    ⟨sensor_name.data.drop 6⟩
  else sensor_name

/-- `get_profile` from sensor_config.py. -/
def get_profile (sensor_name : String) : SensorProfile :=
  if sensor_type sensor_name = "Mov" then movProfile
  else if sensor_type sensor_name = "Gyro" then gyroProfile
  else if sensor_type sensor_name = "Lux" then luxProfile
  else defaultProfile

/-- `get_metric_ids` from sensor_config.py. -/
def get_metric_ids (sensor_name : String) : List String :=
  (get_profile sensor_name).metrics.map MetricDef.id

/-- One element of `series_data` in state.py, a saved series snapshot. -/
structure Series where
  name : String
  t_s : List ℚ
  values : List (String × List (Option ℚ))
  metric_ids : List String
deriving DecidableEq

/-- The module-level mutable state of state.py (configuration constants
and the MQTT client objects are modelled separately; `mqtt_client` keeps
only whether a measurement client has been installed). -/
structure AppState where
  available_sensors : List String
  sensor_last_seen : List (String × ℚ)
  selected_sensor : Option String
  current_topic : Option String
  selected_sensors : List String
  current_topics : List (String × String)
  selected_channel_map : List (String × List String)
  mqtt_client : Bool
  buf_t_s : List ℚ
  buf_values : List (String × List (Option ℚ))
  last_t_s : Option ℚ
  last_values : List (String × Option ℚ)
  last_avg_dropped : Option Int
  current_metric_ids : List String
  measurement_duration_s : Option ℚ
  is_measuring : Bool
  measurement_sample_index : Nat
  measurement_elapsed_s : ℚ
  series_data : List Series
  series_counter : Nat
  display_series_index : Option Nat
deriving DecidableEq

/-- The import-time initial values of state.py's globals. -/
def initState : AppState :=
  { available_sensors := []
    sensor_last_seen := []
    selected_sensor := none
    current_topic := none
    selected_sensors := []
    current_topics := []
    selected_channel_map := []
    mqtt_client := false
    buf_t_s := []
    buf_values := []
    last_t_s := none
    last_values := []
    last_avg_dropped := none
    current_metric_ids := []
    measurement_duration_s := none
    is_measuring := false
    measurement_sample_index := 0
    measurement_elapsed_s := 0
    series_data := []
    series_counter := 0
    display_series_index := none }

/-- `ensure_metric_buffers` from state.py: install the active metric list,
create missing buffers/last-value entries, drop the ones that no longer
apply. -/
def ensure_metric_buffers (metric_ids : List String) (s : AppState) : AppState :=
  let bv := metric_ids.foldl
    (fun bv mid => if hasKey bv mid then bv else bv ++ [(mid, ([] : List (Option ℚ)))])
    s.buf_values
  let lv := metric_ids.foldl
    (fun lv mid => if hasKey lv mid then lv else lv ++ [(mid, (none : Option ℚ))])
    s.last_values
  { s with
    current_metric_ids := metric_ids
    buf_values := bv.filter (fun p => metric_ids.contains p.1)
    last_values := lv.filter (fun p => metric_ids.contains p.1) }

/-- `reset_all_state` from state.py: clear buffers, cached values,
measurement session, saved series and display pointer; sensor selection
and discovery are untouched. -/
def reset_all_state (s : AppState) : AppState :=
  { s with
    buf_t_s := []
    buf_values := s.buf_values.map (fun p => (p.1, []))
    last_t_s := none
    last_values := s.last_values.map (fun p => (p.1, none))
    last_avg_dropped := none
    measurement_duration_s := none
    is_measuring := false
    measurement_sample_index := 0
    measurement_elapsed_s := 0
    series_data := []
    series_counter := 0
    display_series_index := none }

/-- An MQTT message as observed by `mqtt_on_message`: the topic pre-split
on `/`, and the decoded JSON object (`none` when decoding raises). -/
structure MqttMsg where
  topic : List String
  payload : Option (List (String × PyVal))
deriving DecidableEq

/-- Python `j.get(k)`: a missing key behaves like JSON null. -/
def pyGet (j : List (String × PyVal)) (k : String) : PyVal :=
  (alookup j k).getD .vnull

/-- Python `k in j`. -/
def jhas (j : List (String × PyVal)) (k : String) : Bool :=
  hasKey j k

/-- The scaled metric value read by `mqtt_on_message`:
`_to_float(j.get(json_key))`, multiplied by the metric's scale when not
`None`. -/
def scaledVal (j : List (String × PyVal)) (m : MetricDef) : Option ℚ :=
  (pyFloat (pyGet j m.json_key)).map (fun v => v * m.scale)

/-- The per-metric channel filter inside `mqtt_on_message`: a metric is
read unless the user defined a channel subset for this sensor that
excludes it (`selected_channels is not None and mid not in
selected_channels` skips the metric). -/
def channel_selected (selected_channels : Option (List String)) (mid : String) : Bool :=
  match selected_channels with
  | some chans => chans.contains mid
  | none => true

/-- The data extracted from a message that passes every validation step
of `mqtt_on_message`. -/
structure Accepted where
  sensor_name : String
  profile : SensorProfile
  avg : Option Int
  prefixed_values : List (String × Option ℚ)
deriving DecidableEq

/-- The validation/extraction part of `mqtt_on_message` from
mqtt_handler.py (everything before the final state-update block):
topic-shape check, selected-sensor check, JSON decode, mandatory `t_ms`
parse, required-keys check, per-metric value reading restricted to the
selected channels, and sensor-name prefixing.  Returns `none` exactly on
the silent-rejection paths. -/
def screen_message (selected_sensors : List String)
    (selected_channel_map : List (String × List String)) (msg : MqttMsg) : Option Accepted :=
  let parts := msg.topic
  if parts.length < 3 ∨ parts.getD 0 "" ≠ eqRoot ∨ parts.getD 2 "" ≠ "data" then none
  else
    let sensor_name := parts.getD 1 ""
    if selected_sensors.contains sensor_name = false then none
    else
      let selected_channels := alookup selected_channel_map sensor_name
      match msg.payload with
      | none => none
      | some j =>
        if (pyInt (pyGet j "t_ms")).isNone then none
        else
          let profile := get_profile sensor_name
          if profile.required_keys.any (fun rk => !(rk == "t_ms") && !(jhas j rk)) then none
          else
            let avg : Option Int :=
              match profile.avg_dropped_key with
              | some k => pyInt (pyGet j k)
              | none => none
            let values : List (String × Option ℚ) :=
              profile.metrics.foldl
                (fun acc m =>
                  if channel_selected selected_channels m.id then
                    acc ++ [(m.id, scaledVal j m)]
                  else acc)
                []
            some
              { sensor_name := sensor_name
                profile := profile
                avg := avg
                prefixed_values := values.map (fun p => (sensor_name ++ ":" ++ p.1, p.2)) }

/-- Append one sample to each active metric buffer, `fill` choosing the
value per metric (the loop at the end of `mqtt_on_message`). -/
def appendToBuffers (fill : String → Option ℚ) (ids : List String)
    (bv : List (String × List (Option ℚ))) : List (String × List (Option ℚ)) :=
  ids.foldl
    (fun (acc : List (String × List (Option ℚ))) mid =>
      acc.map (fun (p : String × List (Option ℚ)) =>
        if p.1 = mid then (p.1, dappend p.2 (fill mid)) else p))
    bv

/-- The state-update block of `mqtt_on_message` from mqtt_handler.py:
refresh the last-value cache and `last_avg_dropped`, and, while
measuring, advance the sample index, derive the relative time, append it
to the time buffer and append a value (computed this tick, else the last
cached one) to every active metric buffer. -/
def ingest (a : Accepted) (s : AppState) : AppState :=
  let s1 := { s with
    last_avg_dropped := a.avg
    last_values := a.prefixed_values.foldl
      (fun lv (p : String × Option ℚ) => aset lv p.1 p.2) s.last_values }
  if s1.is_measuring then
    let sample_period := a.profile.sample_period_s.getD SAMPLE_PERIOD_S
    let t_rel_s := (s1.measurement_sample_index : ℚ) * sample_period
    let s2 := { s1 with
      measurement_sample_index := s1.measurement_sample_index + 1
      measurement_elapsed_s := t_rel_s
      last_t_s := some t_rel_s
      buf_t_s := dappend s1.buf_t_s t_rel_s }
    { s2 with
      buf_values := appendToBuffers
        (fun mid =>
          match alookup a.prefixed_values mid with
          | some v => v
          | none => (alookup s2.last_values mid).getD none)
        s2.current_metric_ids s2.buf_values }
  else s1

/-- `mqtt_on_message` from mqtt_handler.py, with the silent-rejection
paths made observable: `none` when the message is dropped. -/
def mqtt_on_message_core (s : AppState) (msg : MqttMsg) : Option AppState :=
  match screen_message s.selected_sensors s.selected_channel_map msg with
  | none => none
  | some a => some (ingest a s)

/-- `mqtt_on_message` as a total state transformer (a rejected message
leaves the state unchanged). -/
def mqtt_on_message (s : AppState) (msg : MqttMsg) : AppState :=
  (mqtt_on_message_core s msg).getD s

/-- `supervisor_on_message` from mqtt_handler.py: discovery of sensors
announcing on `EQ1/<sensor>/data`. -/
def supervisor_on_message (s : AppState) (topic : List String) : AppState :=
  let parts := topic
  if parts.length ≥ 3 ∧ parts.getD 0 "" = eqRoot ∧ parts.getD 2 "" = "data" then
    let sensor := parts.getD 1 ""
    if sensor ≠ "" then
      { s with available_sensors :=
          if s.available_sensors.contains sensor then s.available_sensors
          else s.available_sensors ++ [sensor] }
    else s
  else s

/-- A transport call issued by `set_current_sensors`. -/
inductive SubAction where
  | subscribe (topic : String)
  | unsubscribe (topic : String)
deriving DecidableEq

/-- The normalization loop of `set_current_sensors`: drop empty names and
duplicates, preserving first-seen order. -/
def normalize_sensors (sensors : List String) : List String :=
  sensors.foldl
    (fun acc nm => if nm ≠ "" ∧ acc.contains nm = false then acc ++ [nm] else acc)
    []

/-- Python `set(a) == set(b)` on sensor-name lists. -/
def listSetEq (a b : List String) : Bool :=
  a.all (fun x => b.contains x) && b.all (fun x => a.contains x)

/-- The data topic of a sensor: `EQ1/<sensor>/data`. -/
def topic_for (nm : String) : String := eqRoot ++ "/" ++ nm ++ "/data"

/-- The loop in `set_current_sensors` that builds the sensor-prefixed
metric-id list for the selected sensors. -/
def prefixed_ids (sensors_unique : List String) : List String :=
  sensors_unique.foldl
    (fun acc nm => acc ++ (get_metric_ids nm).map (fun mid => nm ++ ":" ++ mid)) []

/-- `set_current_sensors` from mqtt_handler.py.  Returns the new state
together with the subscribe/unsubscribe calls issued to the transport
(empty when no measurement client is installed). -/
def set_current_sensors (sensors : List String) (s : AppState) : AppState × List SubAction :=
  if sensors.isEmpty then (s, [])
  else
    let sensors_unique := normalize_sensors sensors
    let prev_sensors := s.selected_sensors
    let s1 := if listSetEq prev_sensors sensors_unique then s else reset_all_state s
    let new_topics := sensors_unique.map (fun nm => (nm, topic_for nm))
    let metric_ids_prefixed := prefixed_ids sensors_unique
    let s2 := ensure_metric_buffers metric_ids_prefixed s1
    let old_topics := s2.current_topics
    let s3 := { s2 with
      selected_sensors := sensors_unique
      current_topics := new_topics
      selected_sensor := sensors_unique.head?
      current_topic :=
        match sensors_unique.head? with
        | some nm => alookup new_topics nm
        | none => none }
    let acts :=
      if s3.mqtt_client then
        let newVals := new_topics.map Prod.snd
        let oldVals := old_topics.map Prod.snd
        (oldVals.filter (fun t => t ≠ "" ∧ newVals.contains t = false)).map SubAction.unsubscribe
          ++ (new_topics.filter (fun p => p.2 ≠ "" ∧ oldVals.contains p.2 = false)).map
            (fun p => SubAction.subscribe p.2)
      else []
    (s3, acts)

/-- `set_current_sensor` from mqtt_handler.py: single-sensor
compatibility wrapper. -/
def set_current_sensor (sensor : String) (s : AppState) : AppState × List SubAction :=
  if sensor = "" then (s, []) else set_current_sensors [sensor] s

/-- `clear_current_measurement` from pages/dashboard_page.py (state part:
the figure/label/table refresh is rendering). -/
def clear_current_measurement (clear_buffers : Bool) (s : AppState) : AppState :=
  let s1 :=
    if clear_buffers then
      { s with
        buf_t_s := []
        buf_values := s.buf_values.map
          (fun p => if s.current_metric_ids.contains p.1 then (p.1, []) else p) }
    else s
  { s1 with
    last_t_s := none
    last_values := s1.current_metric_ids.foldl (fun lv mid => aset lv mid none) s1.last_values
    measurement_sample_index := 0
    measurement_elapsed_s := 0 }

/-- `start_measurement` from pages/dashboard_page.py. -/
def start_measurement (s : AppState) : AppState :=
  let s1 := { s with display_series_index := none, is_measuring := true }
  clear_current_measurement true s1

/-- `stop_measurement` from pages/dashboard_page.py. -/
def stop_measurement (s : AppState) : AppState :=
  if s.is_measuring then { s with is_measuring := false } else s

/-- Decimal rendering of a natural number, modelling Python `str(int)`
inside the f-string that names a saved series. -/
def natRepr (n : Nat) : String :=
  if n = 0 then "0" else ⟨((Nat.digits 10 n).map Nat.digitChar).reverse⟩

/-- The outcome of `save_series`. -/
inductive SaveResult where
  | saved (name : String)
  | emptyError
deriving DecidableEq

/-- `save_series` from pages/dashboard_page.py.  `metric_ids` is the
page-local active metric list (kept in sync with
`state.current_metric_ids` by the page).  With an empty time buffer the
save is rejected ("No hay datos para guardar"). -/
def save_series (metric_ids : List String) (s : AppState) : SaveResult × AppState :=
  let s1 := { s with is_measuring := false }
  let x := s1.buf_t_s
  let values_copy := metric_ids.map (fun mid => (mid, (alookup s1.buf_values mid).getD []))
  if x.isEmpty then (.emptyError, s1)
  else
    let c := s1.series_counter + 1
    let nm := "Serie " ++ natRepr c
    let s2 := { s1 with
      series_counter := c
      series_data := s1.series_data ++
        [{ name := nm, t_s := x, values := values_copy, metric_ids := metric_ids }]
      display_series_index := none }
    (.saved nm, clear_current_measurement true s2)

/-- `clear_all` from pages/dashboard_page.py. -/
def clear_all (s : AppState) : AppState :=
  let s1 := { s with
    is_measuring := false
    series_data := []
    series_counter := 0
    display_series_index := none }
  clear_current_measurement true s1

/-- `configure_time` from pages/dashboard_page.py. -/
def configure_time (value : PyVal) (unit : String) (s : AppState) : AppState :=
  let v : ℚ := (pyFloat value).getD 0
  if v ≤ 0 then { s with measurement_duration_s := none }
  else { s with measurement_duration_s := some (v * (if unit = "minutos" then 60 else 1)) }

/-- `display_series` from pages/dashboard_page.py (state part): stop
measuring and point the display at the first series with the chosen
name, or back at the live view. -/
def display_series (value : Option String) (s : AppState) : AppState :=
  let s1 := { s with is_measuring := false }
  match value with
  | none => { s1 with display_series_index := none }
  | some v => { s1 with display_series_index := s1.series_data.findIdx? (fun sr => sr.name == v) }

/-- The auto-stop check at the head of `update_plots` in
pages/dashboard_page.py (the rest of the function renders the current
view and mutates no engine state). -/
def update_plots_autostop (s : AppState) : AppState :=
  if s.is_measuring then
    match s.measurement_duration_s with
    | some limit => if limit ≤ s.measurement_elapsed_s then stop_measurement s else s
    | none => s
  else s

/-- The staleness-eviction part of `sensor_checklist` in
pages/selector_page.py: keep the sensors seen within `SENSOR_STALE_S` of
`now`, evict the rest from `available_sensors` and `sensor_last_seen`.
Returns the alive list (the page sorts it for display). -/
def sensor_checklist_prune (now : ℚ) (s : AppState) : List String × AppState :=
  let alive := s.available_sensors.filter
    (fun nm => decide (now - ((alookup s.sensor_last_seen nm).getD 0) ≤ SENSOR_STALE_S))
  let s1 := { s with
    available_sensors := alive
    sensor_last_seen := s.sensor_last_seen.filter
      (fun p => !(s.available_sensors.contains p.1) || alive.contains p.1) }
  (alive, s1)

/-- One operation of the engine's public surface, used to describe the
reachable states (transport reconnects and page handlers included). -/
inductive AppOp where
  | opSetSensors (sensors : List String)
  | opSetSensor (sensor : String)
  | opEnsureBuffers (mids : List String)
  | opMsg (m : MqttMsg)
  | opSupervisorMsg (topic : List String)
  | opPrune (now : ℚ)
  | opStart
  | opStop
  | opTick
  | opSave (mids : List String)
  | opClearAll
  | opReset
  | opClearMeasurement (clear_buffers : Bool)
  | opConfigureTime (v : PyVal) (unit : String)
  | opDisplay (value : Option String)
  | opConnect

/-- Apply one operation (results and transport calls discarded). -/
def applyOp : AppOp → AppState → AppState
  | .opSetSensors sensors, s => (set_current_sensors sensors s).1
  | .opSetSensor sensor, s => (set_current_sensor sensor s).1
  | .opEnsureBuffers mids, s => ensure_metric_buffers mids s
  | .opMsg m, s => mqtt_on_message s m
  | .opSupervisorMsg t, s => supervisor_on_message s t
  | .opPrune now, s => (sensor_checklist_prune now s).2
  | .opStart, s => start_measurement s
  | .opStop, s => stop_measurement s
  | .opTick, s => update_plots_autostop s
  | .opSave mids, s => (save_series mids s).2
  | .opClearAll, s => clear_all s
  | .opReset, s => reset_all_state s
  | .opClearMeasurement b, s => clear_current_measurement b s
  | .opConfigureTime v u, s => configure_time v u s
  | .opDisplay v, s => display_series v s
  | .opConnect, s => { s with mqtt_client := true }

/-- Run a sequence of operations from a state. -/
def runOps (ops : List AppOp) (s : AppState) : AppState :=
  ops.foldl (fun s op => applyOp op s) s

/-! ### Derived observations and concrete scenarios -/

/-- The values a message produced this tick (the `prefixed_values` of an
accepted message, nothing for a rejected one), as a function of the
selection configuration only. -/
def producedOf (sel : List String) (cmap : List (String × List String)) (m : MqttMsg) :
    List (String × Option ℚ) :=
  match screen_message sel cmap m with
  | some a => a.prefixed_values
  | none => []

/-- The last value produced for a metric over a message trace:
`some v` when some accepted message produced `v` for `mid` (latest wins),
`none` when no message in the trace produced the metric. -/
def latestProduced (sel : List String) (cmap : List (String × List String))
    (msgs : List MqttMsg) (mid : String) : Option (Option ℚ) :=
  msgs.foldl (fun acc m => (alookup (producedOf sel cmap m) mid).or acc) none

/-- The equal-length invariant: every active metric has a value buffer of
the same length as the time buffer. -/
def buffersSynced (s : AppState) : Prop :=
  ∀ mid ∈ s.current_metric_ids,
    ∃ buf, alookup s.buf_values mid = some buf ∧ buf.length = s.buf_t_s.length

/-- Snapshot-store well-formedness: the counter equals the number of
saved series and the names are `Serie 1 … Serie n` in order. -/
def namesOK (s : AppState) : Prop :=
  s.series_counter = s.series_data.length ∧
  s.series_data.map Series.name =
    (List.range s.series_data.length).map (fun i => "Serie " ++ natRepr (i + 1))

/-- The prefixed metric ids of SensorMov. -/
def movMids : List String := ["SensorMov:dist_m", "SensorMov:vel_m_s", "SensorMov:acc_m_s2"]

/-- A well-formed SensorMov telemetry payload. -/
def movPayload : List (String × PyVal) :=
  [("t_ms", .vint 1000), ("cm", .vint 250), ("v_cm_s", .vint 10), ("a_cm_s2", .vint 0)]

/-- A well-formed SensorMov telemetry message. -/
def movMsg : MqttMsg := { topic := ["EQ1", "SensorMov", "data"], payload := some movPayload }

/-- A SensorMov payload whose timestamp is the non-integer float 2.7. -/
def movPayload27 : List (String × PyVal) :=
  [("t_ms", .vfloat (27/10)), ("cm", .vint 250), ("v_cm_s", .vint 10), ("a_cm_s2", .vint 0)]

/-- A SensorMov message whose timestamp is the non-integer float 2.7. -/
def msg27 : MqttMsg := { topic := ["EQ1", "SensorMov", "data"], payload := some movPayload27 }

/-- A well-formed SensorLux telemetry message. -/
def luxMsg : MqttMsg :=
  { topic := ["EQ1", "SensorLux", "data"]
    payload := some [("t_ms", .vint 500), ("Lux", .vint 5)] }

/-- A freshly started SensorMov session with a 2-second duration limit. -/
def measuringDemoState : AppState :=
  { initState with
    selected_sensors := ["SensorMov"]
    current_topics := [("SensorMov", "EQ1/SensorMov/data")]
    current_metric_ids := movMids
    buf_values := [("SensorMov:dist_m", []), ("SensorMov:vel_m_s", []), ("SensorMov:acc_m_s2", [])]
    last_values := [("SensorMov:dist_m", none), ("SensorMov:vel_m_s", none),
      ("SensorMov:acc_m_s2", none)]
    measurement_duration_s := some 2
    is_measuring := true }

/-- A running session that records only SensorMov's distance channel. -/
def minimalMovState : AppState :=
  { initState with
    selected_sensors := ["SensorMov"]
    current_metric_ids := ["SensorMov:dist_m"]
    buf_values := [("SensorMov:dist_m", [])]
    last_values := [("SensorMov:dist_m", none)]
    is_measuring := true }

/-- A running session over two selected sensors with freshly cleared
buffers and cache. -/
def twoSensorState : AppState :=
  { initState with
    selected_sensors := ["SensorMov", "SensorLux"]
    current_metric_ids := ["SensorMov:dist_m", "SensorMov:vel_m_s", "SensorMov:acc_m_s2",
      "SensorLux:Lux"]
    buf_values := [("SensorMov:dist_m", []), ("SensorMov:vel_m_s", []),
      ("SensorMov:acc_m_s2", []), ("SensorLux:Lux", [])]
    last_values := [("SensorMov:dist_m", none), ("SensorMov:vel_m_s", none),
      ("SensorMov:acc_m_s2", none), ("SensorLux:Lux", none)]
    is_measuring := true }

/-- The state reached from `minimalMovState` by accepting one SensorMov
sample while measuring and then enabling the velocity channel mid-session
(a channel-only change through `ensure_metric_buffers`). -/
def c5BrokenState : AppState :=
  ensure_metric_buffers ["SensorMov:dist_m", "SensorMov:vel_m_s"]
    (mqtt_on_message minimalMovState movMsg)

/-- The `Accepted` record produced by screening `movMsg` in
`twoSensorState`. -/
def movAccepted : Accepted :=
  (screen_message ["SensorMov", "SensorLux"] [] movMsg).getD
    { sensor_name := "", profile := defaultProfile, avg := none, prefixed_values := [] }

/-- A state holding one saved series, with SensorMov selected and
nonempty value buffers. -/
def snapshotDemoState : AppState :=
  { initState with
    selected_sensors := ["SensorMov"]
    current_topics := [("SensorMov", "EQ1/SensorMov/data")]
    current_metric_ids := movMids
    buf_values := [("SensorMov:dist_m", [none]), ("SensorMov:vel_m_s", [none]),
      ("SensorMov:acc_m_s2", [])]
    last_values := [("SensorMov:dist_m", none), ("SensorMov:vel_m_s", none),
      ("SensorMov:acc_m_s2", none)]
    series_data := [{ name := "Serie 1", t_s := [0], values := [], metric_ids := movMids }]
    series_counter := 1 }

/-! ### Association-list lemmas -/

theorem alookup_nil {α : Type} (x : String) : alookup ([] : List (String × α)) x = none := rfl

theorem alookup_pair_cons {α : Type} (a : String × α) (m : List (String × α)) (x : String) :
    alookup (a :: m) x = if a.1 = x then some a.2 else alookup m x := rfl

theorem alookup_append {α : Type} (m n : List (String × α)) (x : String) :
    alookup (m ++ n) x = (alookup m x).or (alookup n x) := by
  induction m with
  | nil => rfl
  | cons a t ih =>
    rw [List.cons_append, alookup_pair_cons, alookup_pair_cons]
    by_cases h : a.1 = x
    · rw [if_pos h, if_pos h]; rfl
    · rw [if_neg h, if_neg h, ih]

theorem hasKey_eq_isSome {α : Type} (m : List (String × α)) (x : String) :
    hasKey m x = (alookup m x).isSome := by
  induction m with
  | nil => rfl
  | cons a t ih =>
    rw [hasKey, List.any_cons, alookup_pair_cons]
    by_cases h : a.1 = x
    · simp [h]
    · rw [decide_eq_false h, Bool.false_or, if_neg h]
      exact ih

theorem alookup_map_modify {α : Type} (m : List (String × α)) (k : String) (f : α → α)
    (x : String) :
    alookup (m.map (fun p => if p.1 = k then (p.1, f p.2) else p)) x =
      if x = k then (alookup m k).map f else alookup m x := by
  induction m with
  | nil => by_cases h : x = k <;> simp [alookup_nil, h]
  | cons a t ih =>
    by_cases hak : a.1 = k <;> by_cases hax : a.1 = x
    · have hxk : x = k := hax ▸ hak
      simp [List.map_cons, alookup_pair_cons, hak, hax, hxk]
    · have hxk : ¬ x = k := fun h => hax (hak.trans h.symm)
      have hkx : ¬ k = x := fun h => hxk h.symm
      simp [List.map_cons, alookup_pair_cons, hak, hax, hxk, hkx, ih]
    · have hxk : ¬ x = k := fun h => hak (hax.trans h)
      simp [List.map_cons, alookup_pair_cons, hak, hax, hxk]
    · simp [List.map_cons, alookup_pair_cons, hak, hax, ih]

theorem alookup_aset {α : Type} (m : List (String × α)) (k : String) (v : α) (x : String) :
    alookup (aset m k v) x = if x = k then some v else alookup m x := by
  unfold aset
  cases hb : hasKey m k with
  | true =>
    rw [if_pos rfl]
    have hmod := alookup_map_modify m k (fun _ => v) x
    rw [hmod]
    by_cases hxk : x = k
    · rw [if_pos hxk, if_pos hxk]
      have hs : (alookup m k).isSome = true := by rw [← hasKey_eq_isSome]; exact hb
      cases hmk : alookup m k with
      | none => rw [hmk] at hs; simp at hs
      | some w => simp
    · rw [if_neg hxk, if_neg hxk]
  | false =>
    rw [if_neg Bool.false_ne_true, alookup_append]
    by_cases hxk : x = k
    · have hs : (alookup m x).isSome = false := by rw [← hasKey_eq_isSome, hxk]; exact hb
      cases hmx : alookup m x with
      | none => rw [if_pos hxk, alookup_pair_cons, if_pos hxk.symm]; rfl
      | some w => rw [hmx] at hs; simp at hs
    · rw [if_neg hxk]
      cases hmx : alookup m x with
      | none => rw [alookup_pair_cons, if_neg (fun h2 => hxk h2.symm)]; rfl
      | some w => rfl

theorem alookup_foldl_aset_not_mem {α : Type} (pv : List (String × α))
    (lv : List (String × α)) (x : String) (hx : ∀ p ∈ pv, p.1 ≠ x) :
    alookup (pv.foldl (fun lv (p : String × α) => aset lv p.1 p.2) lv) x = alookup lv x := by
  induction pv generalizing lv with
  | nil => rfl
  | cons a t ih =>
    rw [List.foldl_cons, ih _ (fun p hp => hx p (List.mem_cons_of_mem a hp)), alookup_aset,
      if_neg (fun h : x = a.1 => hx a (List.mem_cons_self a t) h.symm)]

theorem alookup_foldl_aset {α : Type} (pv : List (String × α)) (lv : List (String × α))
    (x : String) (hnd : (pv.map Prod.fst).Nodup) :
    alookup (pv.foldl (fun lv (p : String × α) => aset lv p.1 p.2) lv) x =
      (alookup pv x).or (alookup lv x) := by
  induction pv generalizing lv with
  | nil => rfl
  | cons a t ih =>
    rw [List.map_cons, List.nodup_cons] at hnd
    rw [List.foldl_cons, alookup_pair_cons]
    by_cases hax : a.1 = x
    · have ht : ∀ p ∈ t, p.1 ≠ x := by
        intro p hp h
        have hm : p.1 ∈ List.map Prod.fst t := List.mem_map_of_mem Prod.fst hp
        rw [h, ← hax] at hm
        exact hnd.1 hm
      rw [alookup_foldl_aset_not_mem t _ x ht, alookup_aset, if_pos hax.symm, if_pos hax]
      rfl
    · rw [if_neg hax, ih _ hnd.2]
      cases h2 : alookup t x with
      | none =>
        simp only [alookup_aset, if_neg (fun h : x = a.1 => hax h.symm)]
      | some w => rfl

theorem alookup_filter_key {α : Type} (m : List (String × α)) (r : String → Bool) (x : String) :
    alookup (m.filter (fun p => r p.1)) x = if r x then alookup m x else none := by
  induction m with
  | nil => by_cases h : r x <;> simp [alookup_nil, h]
  | cons a t ih =>
    by_cases hax : a.1 = x
    · subst hax
      by_cases hr : r a.1 <;>
        simp [List.filter_cons, hr, alookup_pair_cons, ih]
    · by_cases hra : r a.1 <;> by_cases hrx : r x <;>
        simp [List.filter_cons, hra, hrx, hax, alookup_pair_cons, ih]

theorem contains_eq_true_iff (l : List String) (x : String) : l.contains x = true ↔ x ∈ l := by
  simp

theorem alookup_append_left {α : Type} (m n : List (String × α)) (x : String)
    (h : (alookup m x).isSome) : alookup (m ++ n) x = alookup m x := by
  rw [alookup_append]
  cases hm : alookup m x with
  | none => rw [hm] at h; simp at h
  | some w => rfl

theorem alookup_addfold_of_isSome {α : Type} (e : α) (ids : List String)
    (m : List (String × α)) (x : String) (h : (alookup m x).isSome) :
    alookup (ids.foldl (fun acc mid => if hasKey acc mid then acc else acc ++ [(mid, e)]) m) x
      = alookup m x := by
  induction ids generalizing m with
  | nil => rfl
  | cons i t ih =>
    rw [List.foldl_cons]
    by_cases hk : hasKey m i
    · rw [if_pos hk, ih m h]
    · rw [if_neg hk, ih _ (by rw [alookup_append_left m _ x h]; exact h),
        alookup_append_left m _ x h]

theorem alookup_addfold_not_mem {α : Type} (e : α) (ids : List String)
    (m : List (String × α)) (x : String) (hx : x ∉ ids) :
    alookup (ids.foldl (fun acc mid => if hasKey acc mid then acc else acc ++ [(mid, e)]) m) x
      = alookup m x := by
  induction ids generalizing m with
  | nil => rfl
  | cons i t ih =>
    have hxi : x ≠ i := fun h => hx (h ▸ List.mem_cons_self i t)
    have hxt : x ∉ t := fun h => hx (List.mem_cons_of_mem i h)
    rw [List.foldl_cons]
    by_cases hk : hasKey m i
    · rw [if_pos hk, ih m hxt]
    · rw [if_neg hk, ih _ hxt, alookup_append]
      cases hm : alookup m x with
      | none => rw [alookup_pair_cons, if_neg (fun h => hxi h.symm)]; rfl
      | some w => rfl

theorem alookup_addfold_mem {α : Type} (e : α) (ids : List String)
    (m : List (String × α)) (x : String) (hx : x ∈ ids) :
    alookup (ids.foldl (fun acc mid => if hasKey acc mid then acc else acc ++ [(mid, e)]) m) x
      = some ((alookup m x).getD e) := by
  induction ids generalizing m with
  | nil => cases hx
  | cons i t ih =>
    rw [List.foldl_cons]
    by_cases hxi : x = i
    · subst hxi
      by_cases hk : hasKey m x
      · rw [if_pos hk]
        have hs : (alookup m x).isSome = true := by rw [← hasKey_eq_isSome]; exact hk
        cases hm : alookup m x with
        | none => rw [hm] at hs; simp at hs
        | some w =>
          by_cases hxt : x ∈ t
          · rw [ih m hxt, hm]
          · rw [alookup_addfold_not_mem e t m x hxt, hm]
            rfl
      · rw [if_neg hk]
        have hs : (alookup m x) = none := by
          cases hm : alookup m x with
          | none => rfl
          | some w =>
            exact absurd (by rw [hasKey_eq_isSome, hm]; rfl) hk
        have happ : alookup (m ++ [(x, e)]) x = some e := by
          rw [alookup_append, hs, alookup_pair_cons, if_pos rfl]
          rfl
        by_cases hxt : x ∈ t
        · rw [ih _ hxt, happ, hs]
          rfl
        · rw [alookup_addfold_not_mem e t _ x hxt, happ, hs]
          rfl
    · have hxt : x ∈ t := by
        cases hx with
        | head => exact absurd rfl hxi
        | tail _ h => exact h
      by_cases hk : hasKey m i
      · rw [if_pos hk, ih m hxt]
      · rw [if_neg hk, ih _ hxt, alookup_append]
        cases hm : alookup m x with
        | none => rw [alookup_pair_cons, if_neg (fun h => hxi h.symm)]; rfl
        | some w => rfl

theorem mem_addfold {α : Type} (e : α) (ids : List String) (m : List (String × α))
    (p : String × α)
    (hp : p ∈ ids.foldl (fun acc mid => if hasKey acc mid then acc else acc ++ [(mid, e)]) m) :
    p ∈ m ∨ p.2 = e := by
  induction ids generalizing m with
  | nil => exact Or.inl hp
  | cons i t ih =>
    rw [List.foldl_cons] at hp
    by_cases hk : hasKey m i
    · rw [if_pos hk] at hp
      exact ih m hp
    · rw [if_neg hk] at hp
      rcases ih _ hp with h | h
      · rcases List.mem_append.mp h with h2 | h2
        · exact Or.inl h2
        · right
          rw [List.mem_singleton.mp h2]
      · exact Or.inr h

theorem addfold_eq_of_present {α : Type} (e : α) (ids : List String) (m : List (String × α))
    (h : ∀ i ∈ ids, (alookup m i).isSome) :
    ids.foldl (fun acc mid => if hasKey acc mid then acc else acc ++ [(mid, e)]) m = m := by
  induction ids with
  | nil => rfl
  | cons i t ih =>
    rw [List.foldl_cons,
      if_pos (by rw [hasKey_eq_isSome]; exact h i (List.mem_cons_self i t)),
      ih (fun j hj => h j (List.mem_cons_of_mem i hj))]

theorem length_dappend {α : Type} (xs : List α) (x : α) :
    (dappend xs x).length = if xs.length < MAX_POINTS then xs.length + 1 else xs.length := by
  unfold dappend
  by_cases h : xs.length < MAX_POINTS
  · rw [if_pos h, if_pos h, List.length_append, List.length_singleton]
  · rw [if_neg h, if_neg h, List.length_append, List.length_singleton, List.length_drop]
    have h1 : 1 ≤ xs.length := by
      have := Nat.le_of_not_lt h
      have h250 : (0:Nat) < MAX_POINTS := by norm_num [MAX_POINTS]
      omega
    omega

theorem getLast?_dappend {α : Type} (xs : List α) (x : α) :
    (dappend xs x).getLast? = some x := by
  unfold dappend
  by_cases h : xs.length < MAX_POINTS
  · rw [if_pos h, List.getLast?_concat]
  · rw [if_neg h, List.getLast?_concat]

theorem alookup_map_dappend (bv : List (String × List (Option ℚ))) (i : String)
    (fillv : Option ℚ) (x : String) :
    alookup (bv.map (fun p => if p.1 = i then (p.1, dappend p.2 fillv) else p)) x =
      if x = i then (alookup bv i).map (fun buf => dappend buf fillv) else alookup bv x :=
  alookup_map_modify bv i (fun buf => dappend buf fillv) x

theorem alookup_appendToBuffers_not_mem (fill : String → Option ℚ) (ids : List String)
    (bv : List (String × List (Option ℚ))) (x : String) (hx : x ∉ ids) :
    alookup (appendToBuffers fill ids bv) x = alookup bv x := by
  induction ids generalizing bv with
  | nil => rfl
  | cons i t ih =>
    have hxi : ¬ x = i := fun h => hx (h ▸ List.mem_cons_self i t)
    have hxt : x ∉ t := fun h => hx (List.mem_cons_of_mem i h)
    rw [appendToBuffers, List.foldl_cons, ← appendToBuffers, ih _ hxt, alookup_map_dappend,
      if_neg hxi]

theorem alookup_appendToBuffers_mem (fill : String → Option ℚ) (ids : List String)
    (bv : List (String × List (Option ℚ))) (x : String) (hnd : ids.Nodup) (hx : x ∈ ids) :
    alookup (appendToBuffers fill ids bv) x =
      (alookup bv x).map (fun buf => dappend buf (fill x)) := by
  induction ids generalizing bv with
  | nil => cases hx
  | cons i t ih =>
    rw [List.nodup_cons] at hnd
    rw [appendToBuffers, List.foldl_cons, ← appendToBuffers]
    by_cases hxi : x = i
    · subst hxi
      rw [alookup_appendToBuffers_not_mem _ _ _ _ hnd.1, alookup_map_dappend, if_pos rfl]
    · have hxt : x ∈ t := by
        cases hx with
        | head => exact absurd rfl hxi
        | tail _ h => exact h
      rw [ih _ hnd.2 hxt, alookup_map_dappend, if_neg hxi]

/-! ### List helpers for selection normalization -/

theorem mem_normalize_aux (l : List String) (acc : List String) (x : String) :
    x ∈ l.foldl
        (fun acc nm => if nm ≠ "" ∧ acc.contains nm = false then acc ++ [nm] else acc) acc ↔
      x ∈ acc ∨ (x ∈ l ∧ x ≠ "") := by
  induction l generalizing acc with
  | nil => simp
  | cons nm t ih =>
    rw [List.foldl_cons]
    by_cases hc : nm ≠ "" ∧ acc.contains nm = false
    · rw [if_pos hc, ih]
      constructor
      · rintro (h | h)
        · rcases List.mem_append.mp h with h2 | h2
          · exact Or.inl h2
          · rw [List.mem_singleton.mp h2]
            exact Or.inr ⟨List.mem_cons_self nm t, hc.1⟩
        · exact Or.inr ⟨List.mem_cons_of_mem nm h.1, h.2⟩
      · rintro (h | ⟨h1, h2⟩)
        · exact Or.inl (List.mem_append.mpr (Or.inl h))
        · cases h1 with
          | head => exact Or.inl (List.mem_append.mpr (Or.inr (List.mem_singleton.mpr rfl)))
          | tail _ h3 => exact Or.inr ⟨h3, h2⟩
    · rw [if_neg hc, ih]
      constructor
      · rintro (h | h)
        · exact Or.inl h
        · exact Or.inr ⟨List.mem_cons_of_mem nm h.1, h.2⟩
      · rintro (h | ⟨h1, h2⟩)
        · exact Or.inl h
        · cases h1 with
          | head =>
            rcases Decidable.not_and_iff_or_not.mp hc with h3 | h3
            · exact absurd h2 (by simpa using h3)
            · have : x ∈ acc := by
                have hb : acc.contains x = true := by
                  cases hcc : acc.contains x with
                  | true => rfl
                  | false => exact absurd hcc h3
                exact (contains_eq_true_iff acc x).mp hb
              exact Or.inl this
          | tail _ h3 => exact Or.inr ⟨h3, h2⟩

theorem mem_normalize_sensors (l : List String) (x : String) :
    x ∈ normalize_sensors l ↔ x ∈ l ∧ x ≠ "" := by
  rw [normalize_sensors, mem_normalize_aux]
  simp

theorem listSetEq_iff (a b : List String) :
    listSetEq a b = true ↔ ((∀ x ∈ a, x ∈ b) ∧ ∀ x ∈ b, x ∈ a) := by
  rw [listSetEq, Bool.and_eq_true, List.all_eq_true, List.all_eq_true]
  constructor
  · rintro ⟨h1, h2⟩
    exact ⟨fun x hx => (contains_eq_true_iff b x).mp (h1 x hx),
      fun x hx => (contains_eq_true_iff a x).mp (h2 x hx)⟩
  · rintro ⟨h1, h2⟩
    exact ⟨fun x hx => (contains_eq_true_iff b x).mpr (h1 x hx),
      fun x hx => (contains_eq_true_iff a x).mpr (h2 x hx)⟩

theorem foldl_append_flatMap {α β : Type} (f : α → List β) (l : List α) (acc : List β) :
    l.foldl (fun acc nm => acc ++ f nm) acc = acc ++ l.flatMap f := by
  induction l generalizing acc with
  | nil => simp
  | cons a t ih => simp [ih, List.flatMap_cons, List.append_assoc]

/-! ### Frame lemmas: which fields each operation leaves unchanged -/

/-- The fields of the engine state that a message-ingestion step never
touches. -/
def SelFrame (s s' : AppState) : Prop :=
  s'.selected_sensors = s.selected_sensors ∧
  s'.selected_channel_map = s.selected_channel_map ∧
  s'.current_metric_ids = s.current_metric_ids ∧
  s'.is_measuring = s.is_measuring ∧
  s'.measurement_duration_s = s.measurement_duration_s ∧
  s'.series_data = s.series_data ∧
  s'.series_counter = s.series_counter ∧
  s'.mqtt_client = s.mqtt_client

theorem selFrame_refl (s : AppState) : SelFrame s s :=
  ⟨rfl, rfl, rfl, rfl, rfl, rfl, rfl, rfl⟩

theorem selFrame_trans {s1 s2 s3 : AppState} (h1 : SelFrame s1 s2) (h2 : SelFrame s2 s3) :
    SelFrame s1 s3 :=
  ⟨h2.1.trans h1.1, h2.2.1.trans h1.2.1, h2.2.2.1.trans h1.2.2.1,
    h2.2.2.2.1.trans h1.2.2.2.1, h2.2.2.2.2.1.trans h1.2.2.2.2.1,
    h2.2.2.2.2.2.1.trans h1.2.2.2.2.2.1, h2.2.2.2.2.2.2.1.trans h1.2.2.2.2.2.2.1,
    h2.2.2.2.2.2.2.2.trans h1.2.2.2.2.2.2.2⟩

theorem ingest_selFrame (a : Accepted) (s : AppState) : SelFrame s (ingest a s) := by
  unfold ingest
  dsimp only
  split <;> exact ⟨rfl, rfl, rfl, rfl, rfl, rfl, rfl, rfl⟩

theorem ingest_last_values (a : Accepted) (s : AppState) :
    (ingest a s).last_values =
      a.prefixed_values.foldl (fun lv (p : String × Option ℚ) => aset lv p.1 p.2)
        s.last_values := by
  unfold ingest
  dsimp only
  split <;> rfl

theorem mqtt_on_message_selFrame (s : AppState) (m : MqttMsg) :
    SelFrame s (mqtt_on_message s m) := by
  unfold mqtt_on_message mqtt_on_message_core
  cases screen_message s.selected_sensors s.selected_channel_map m with
  | none => exact selFrame_refl s
  | some a => exact ingest_selFrame a s

/-- Processing a list of inbound messages in order. -/
def runMsgs (msgs : List MqttMsg) (s : AppState) : AppState :=
  msgs.foldl mqtt_on_message s

theorem runMsgs_selFrame (msgs : List MqttMsg) (s : AppState) : SelFrame s (runMsgs msgs s) := by
  induction msgs generalizing s with
  | nil => exact selFrame_refl s
  | cons m t ih =>
    exact selFrame_trans (mqtt_on_message_selFrame s m) (ih (mqtt_on_message s m))

theorem ingest_fields_measuring (a : Accepted) (s : AppState) (h : s.is_measuring = true) :
    (ingest a s).measurement_sample_index = s.measurement_sample_index + 1 ∧
    (ingest a s).measurement_elapsed_s
      = (s.measurement_sample_index : ℚ) * (a.profile.sample_period_s.getD SAMPLE_PERIOD_S) ∧
    (ingest a s).buf_t_s = dappend s.buf_t_s
      ((s.measurement_sample_index : ℚ) * (a.profile.sample_period_s.getD SAMPLE_PERIOD_S)) ∧
    (ingest a s).buf_values = appendToBuffers
      (fun mid =>
        match alookup a.prefixed_values mid with
        | some v => v
        | none =>
          (alookup (a.prefixed_values.foldl
              (fun lv (p : String × Option ℚ) => aset lv p.1 p.2) s.last_values) mid).getD none)
      s.current_metric_ids s.buf_values := by
  unfold ingest
  dsimp only
  split
  · exact ⟨rfl, rfl, rfl, rfl⟩
  · next hne => exact absurd h hne

theorem ingest_fields_not_measuring (a : Accepted) (s : AppState)
    (h : s.is_measuring = false) :
    (ingest a s).measurement_sample_index = s.measurement_sample_index ∧
    (ingest a s).measurement_elapsed_s = s.measurement_elapsed_s ∧
    (ingest a s).buf_t_s = s.buf_t_s ∧
    (ingest a s).buf_values = s.buf_values := by
  unfold ingest
  dsimp only
  split
  · next htr => rw [h] at htr; cases htr
  · exact ⟨rfl, rfl, rfl, rfl⟩

/-! ### Claim C9 -/

/-- C9: calling `set_current_sensors` with an empty sensor list is a
complete no-op: the state is returned unchanged and no subscribe or
unsubscribe call is issued, regardless of the previous selection. -/
theorem c9_empty_setSensors_noop (s : AppState) :
    set_current_sensors [] s = (s, []) := rfl

/-! ### Claim C2 -/

/-- C2 (amended): calling `save_series` with an empty time buffer fails
with `EmptyRecording` and leaves every component of the state — the
snapshot store and its counter, all buffers, the last-value cache, the
sample index — unchanged, except that it unconditionally sets
`is_measuring` to `false` before the emptiness check. -/
theorem c2_empty_save_behavior (metric_ids : List String) (s : AppState)
    (h : s.buf_t_s = []) :
    save_series metric_ids s = (SaveResult.emptyError, { s with is_measuring := false }) := by
  unfold save_series
  dsimp only
  rw [h]
  rfl

/-- C2 witness: the amended behavior at a concrete state. -/
theorem c2_empty_save_behavior_witness :
    save_series [] initState = (SaveResult.emptyError, { initState with is_measuring := false }) :=
  c2_empty_save_behavior [] initState rfl

/-- C2 counterexample: with an empty time buffer and a running session,
the failed save does change state — `is_measuring` flips from `true` to
`false` — contradicting the claim that the session state is the same
after the failed call. -/
theorem c2_claim_counterexample :
    (save_series [] { initState with is_measuring := true }).1 = SaveResult.emptyError ∧
    ({ initState with is_measuring := true } : AppState).is_measuring = true ∧
    (save_series [] { initState with is_measuring := true }).2.is_measuring = false :=
  ⟨rfl, rfl, rfl⟩

/-! ### Claim C6 -/

/-- C6 (amended): for a message from a selected sensor with all required
fields present and a decodable payload, `mqtt_on_message` silently
rejects it if and only if the mandatory `t_ms` field fails `_to_int`
coercion entirely (null, non-numeric string, or non-numeric value); a
float timestamp — integer-valued or not — always coerces, by truncation,
so a timestamp like 2.7 is accepted rather than rejected. -/
theorem c6_timestamp_rejection (selected : List String) (cmap : List (String × List String))
    (msg : MqttMsg) (sn : String) (j : List (String × PyVal))
    (htopic : msg.topic = ["EQ1", sn, "data"])
    (hsel : selected.contains sn = true)
    (hj : msg.payload = some j)
    (hreq : (get_profile sn).required_keys.any
      (fun rk => !(rk == "t_ms") && !(jhas j rk)) = false) :
    (screen_message selected cmap msg = none ↔ pyInt (pyGet j "t_ms") = none) ∧
    ∀ q : ℚ, pyInt (PyVal.vfloat q) = some (ratTrunc q) := by
  constructor
  · unfold screen_message
    rw [htopic, hj]
    have hc1 : ¬ ((["EQ1", sn, "data"] : List String).length < 3 ∨
        (["EQ1", sn, "data"] : List String).getD 0 "" ≠ eqRoot ∨
        (["EQ1", sn, "data"] : List String).getD 2 "" ≠ "data") := by
      simp [eqRoot]
    rw [if_neg hc1]
    dsimp only
    have hg : (["EQ1", sn, "data"] : List String).getD 1 "" = sn := rfl
    rw [hg, if_neg (by rw [hsel]; exact fun h => Bool.noConfusion h), hreq]
    cases hpi : pyInt (pyGet j "t_ms") with
    | none => simp
    | some v => simp
  · intro q
    rfl

/-- C6 witness: the amended equivalence at a concrete selected-sensor
message carrying the float timestamp 2.7. -/
theorem c6_timestamp_rejection_witness :
    (screen_message ["SensorMov"] [] msg27 = none ↔
      pyInt (pyGet movPayload27 "t_ms") = none) ∧
    ∀ q : ℚ, pyInt (PyVal.vfloat q) = some (ratTrunc q) :=
  c6_timestamp_rejection ["SensorMov"] [] msg27 "SensorMov" movPayload27 rfl rfl rfl rfl

/-- C6 counterexample: a message from a selected sensor whose `t_ms` is
the non-integer float 2.7 is accepted (the handler runs and, while
measuring, advances the sample index), contradicting the claim that it
is rejected with no state modified. -/
theorem c6_claim_counterexample :
    (mqtt_on_message_core minimalMovState msg27).isSome = true ∧
    (mqtt_on_message minimalMovState msg27).measurement_sample_index = 1 ∧
    minimalMovState.measurement_sample_index = 0 :=
  ⟨rfl, rfl, rfl⟩

/-! ### Claim C4 -/

/-- C4 (code behavior at the failing input): a discovery announcement on
`EQ1/SensorMov/data` adds the sensor to `available_sensors` but writes
nothing to `sensor_last_seen` — the handler has no notion of time at
all.  An active-sensors query immediately afterwards (`now = 1000`,
well within any staleness window of a just-seen sensor) therefore
computes a default last-seen of 0, classifies the sensor as stale, and
evicts it: the query returns the empty list. -/
theorem c4_discovery_divergence :
    (supervisor_on_message initState ["EQ1", "SensorMov", "data"]).available_sensors
      = ["SensorMov"] ∧
    (supervisor_on_message initState ["EQ1", "SensorMov", "data"]).sensor_last_seen = [] ∧
    (sensor_checklist_prune 1000
      (supervisor_on_message initState ["EQ1", "SensorMov", "data"])).1 = [] ∧
    (sensor_checklist_prune 1000
      (supervisor_on_message initState ["EQ1", "SensorMov", "data"])).2.available_sensors
      = [] := by
  have hstale : ¬ ((1000 : ℚ) - (alookup (([]) : List (String × ℚ)) "SensorMov").getD 0
      ≤ SENSOR_STALE_S) := by
    rw [alookup_nil]
    norm_num [SENSOR_STALE_S]
  refine ⟨rfl, rfl, ?_, ?_⟩
  · show List.filter _ _ = []
    rw [show (supervisor_on_message initState ["EQ1", "SensorMov", "data"]).available_sensors
        = ["SensorMov"] from rfl,
      show (supervisor_on_message initState ["EQ1", "SensorMov", "data"]).sensor_last_seen
        = [] from rfl]
    rw [List.filter_cons_of_neg (by simpa using hstale), List.filter_nil]
  · show List.filter _ _ = []
    rw [show (supervisor_on_message initState ["EQ1", "SensorMov", "data"]).available_sensors
        = ["SensorMov"] from rfl,
      show (supervisor_on_message initState ["EQ1", "SensorMov", "data"]).sensor_last_seen
        = [] from rfl]
    rw [List.filter_cons_of_neg (by simpa using hstale), List.filter_nil]

/-! ### Claim C1 -/

/-- C1 (amended): a `set_current_sensors` call whose normalized sensor
set differs from the previous selection performs the full reset — the
sample index is zeroed, the time buffer and every value buffer are
emptied, every last-value cache entry is cleared to `None`, and (beyond
the original claim) the snapshot store is also wiped: `series_data`
becomes empty and `series_counter` zero.  A channel-only change through
`ensure_metric_buffers` touches none of the sample index, elapsed time,
session flag, time buffer or snapshot store, and leaves the buffer and
cache entries of every retained metric unchanged (it only adds or
removes buffer keys). -/
theorem c1_reset_and_channel_change (s : AppState) (sensors mids : List String)
    (hne : sensors.isEmpty = false)
    (hdiff : listSetEq s.selected_sensors (normalize_sensors sensors) = false) :
    ((set_current_sensors sensors s).1.measurement_sample_index = 0 ∧
     (set_current_sensors sensors s).1.buf_t_s = [] ∧
     (∀ p ∈ (set_current_sensors sensors s).1.buf_values, p.2 = ([] : List (Option ℚ))) ∧
     (∀ p ∈ (set_current_sensors sensors s).1.last_values, p.2 = (none : Option ℚ)) ∧
     (set_current_sensors sensors s).1.series_data = [] ∧
     (set_current_sensors sensors s).1.series_counter = 0) ∧
    ((ensure_metric_buffers mids s).measurement_sample_index = s.measurement_sample_index ∧
     (ensure_metric_buffers mids s).measurement_elapsed_s = s.measurement_elapsed_s ∧
     (ensure_metric_buffers mids s).is_measuring = s.is_measuring ∧
     (ensure_metric_buffers mids s).buf_t_s = s.buf_t_s ∧
     (ensure_metric_buffers mids s).series_data = s.series_data ∧
     (ensure_metric_buffers mids s).series_counter = s.series_counter ∧
     (∀ mid ∈ mids, (alookup s.buf_values mid).isSome = true →
        alookup (ensure_metric_buffers mids s).buf_values mid = alookup s.buf_values mid) ∧
     (∀ mid ∈ mids, (alookup s.last_values mid).isSome = true →
        alookup (ensure_metric_buffers mids s).last_values mid = alookup s.last_values mid)) := by
  constructor
  · unfold set_current_sensors
    rw [if_neg (by rw [hne]; exact fun h => Bool.noConfusion h)]
    dsimp only
    rw [if_neg (by rw [hdiff]; exact fun h => Bool.noConfusion h)]
    refine ⟨rfl, rfl, ?_, ?_, rfl, rfl⟩
    · intro p hp
      unfold ensure_metric_buffers at hp
      dsimp only at hp
      have hp2 := (List.mem_filter.mp hp).1
      rcases mem_addfold _ _ _ _ hp2 with h | h
      · unfold reset_all_state at h
        dsimp only at h
        rcases List.mem_map.mp h with ⟨q, _, hq2⟩
        rw [← hq2]
      · exact h
    · intro p hp
      unfold ensure_metric_buffers at hp
      dsimp only at hp
      have hp2 := (List.mem_filter.mp hp).1
      rcases mem_addfold _ _ _ _ hp2 with h | h
      · unfold reset_all_state at h
        dsimp only at h
        rcases List.mem_map.mp h with ⟨q, _, hq2⟩
        rw [← hq2]
      · exact h
  · refine ⟨rfl, rfl, rfl, rfl, rfl, rfl, ?_, ?_⟩
    · intro mid hmid hsome
      show alookup (List.filter _ _) mid = _
      rw [alookup_filter_key, if_pos ((contains_eq_true_iff mids mid).mpr hmid),
        alookup_addfold_of_isSome _ _ _ _ hsome]
    · intro mid hmid hsome
      show alookup (List.filter _ _) mid = _
      rw [alookup_filter_key, if_pos ((contains_eq_true_iff mids mid).mpr hmid),
        alookup_addfold_of_isSome _ _ _ _ hsome]

/-- C1 witness: the amended behavior at a concrete state holding one
saved series, switching the selection from SensorMov to SensorLux and,
for the channel-only part, restricting to the distance channel. -/
theorem c1_reset_and_channel_change_witness :
    ((set_current_sensors ["SensorLux"] snapshotDemoState).1.measurement_sample_index = 0 ∧
     (set_current_sensors ["SensorLux"] snapshotDemoState).1.buf_t_s = [] ∧
     (∀ p ∈ (set_current_sensors ["SensorLux"] snapshotDemoState).1.buf_values,
        p.2 = ([] : List (Option ℚ))) ∧
     (∀ p ∈ (set_current_sensors ["SensorLux"] snapshotDemoState).1.last_values,
        p.2 = (none : Option ℚ)) ∧
     (set_current_sensors ["SensorLux"] snapshotDemoState).1.series_data = [] ∧
     (set_current_sensors ["SensorLux"] snapshotDemoState).1.series_counter = 0) ∧
    ((ensure_metric_buffers ["SensorMov:dist_m"] snapshotDemoState).measurement_sample_index
        = snapshotDemoState.measurement_sample_index ∧
     (ensure_metric_buffers ["SensorMov:dist_m"] snapshotDemoState).measurement_elapsed_s
        = snapshotDemoState.measurement_elapsed_s ∧
     (ensure_metric_buffers ["SensorMov:dist_m"] snapshotDemoState).is_measuring
        = snapshotDemoState.is_measuring ∧
     (ensure_metric_buffers ["SensorMov:dist_m"] snapshotDemoState).buf_t_s
        = snapshotDemoState.buf_t_s ∧
     (ensure_metric_buffers ["SensorMov:dist_m"] snapshotDemoState).series_data
        = snapshotDemoState.series_data ∧
     (ensure_metric_buffers ["SensorMov:dist_m"] snapshotDemoState).series_counter
        = snapshotDemoState.series_counter ∧
     (∀ mid ∈ ["SensorMov:dist_m"], (alookup snapshotDemoState.buf_values mid).isSome = true →
        alookup (ensure_metric_buffers ["SensorMov:dist_m"] snapshotDemoState).buf_values mid
          = alookup snapshotDemoState.buf_values mid) ∧
     (∀ mid ∈ ["SensorMov:dist_m"], (alookup snapshotDemoState.last_values mid).isSome = true →
        alookup (ensure_metric_buffers ["SensorMov:dist_m"] snapshotDemoState).last_values mid
          = alookup snapshotDemoState.last_values mid)) :=
  c1_reset_and_channel_change snapshotDemoState ["SensorLux"] ["SensorMov:dist_m"] rfl rfl

/-- C1 counterexample: the claim as stated is false on two counts.
Switching the sensor set away from SensorMov empties the snapshot store
(`series_data` had one saved series before, none after; the counter
drops from 1 to 0), so the Snapshot Store is not left unchanged; and a
channel-only change that drops the velocity channel removes that
metric's value buffer outright, so "the buffers are not changed" also
fails. -/
theorem c1_claim_counterexample :
    (snapshotDemoState.series_data ≠ [] ∧
     snapshotDemoState.series_counter = 1 ∧
     (set_current_sensors ["SensorLux"] snapshotDemoState).1.series_data = [] ∧
     (set_current_sensors ["SensorLux"] snapshotDemoState).1.series_counter = 0) ∧
    (alookup snapshotDemoState.buf_values "SensorMov:vel_m_s" = some [none] ∧
     alookup (ensure_metric_buffers ["SensorMov:dist_m"] snapshotDemoState).buf_values
       "SensorMov:vel_m_s" = none) :=
  ⟨⟨fun h => List.noConfusion h, rfl, rfl, rfl⟩, rfl, rfl⟩

/-! ### Sample counting and auto-stop (claim C3) -/

theorem get_profile_sample_period (sn : String) : (get_profile sn).sample_period_s = none := by
  unfold get_profile
  split_ifs <;> rfl

theorem screen_some_period (sel : List String) (cmap : List (String × List String))
    (m : MqttMsg) (a : Accepted) (h : screen_message sel cmap m = some a) :
    a.profile.sample_period_s = none := by
  unfold screen_message at h
  dsimp only at h
  split at h
  · cases h
  · split at h
    · cases h
    · split at h
      · cases h
      · split at h
        · cases h
        · split at h
          · cases h
          · rw [← Option.some_inj.mp h]
            exact get_profile_sample_period _

theorem accepted_step (s : AppState) (m : MqttMsg) (a : Accepted)
    (h : screen_message s.selected_sensors s.selected_channel_map m = some a)
    (hmeas : s.is_measuring = true) :
    (mqtt_on_message s m).measurement_sample_index = s.measurement_sample_index + 1 ∧
    (mqtt_on_message s m).measurement_elapsed_s
      = (s.measurement_sample_index : ℚ) * SAMPLE_PERIOD_S := by
  unfold mqtt_on_message mqtt_on_message_core
  rw [h]
  dsimp only [Option.getD]
  obtain ⟨h1, h2, _, _⟩ := ingest_fields_measuring a s hmeas
  rw [screen_some_period _ _ _ _ h] at h2
  exact ⟨h1, by simpa using h2⟩

theorem accepted_run (msgs : List MqttMsg) (s : AppState)
    (hmeas : s.is_measuring = true)
    (hacc : ∀ m ∈ msgs,
      (screen_message s.selected_sensors s.selected_channel_map m).isSome = true) :
    (runMsgs msgs s).measurement_sample_index = s.measurement_sample_index + msgs.length ∧
    (runMsgs msgs s).is_measuring = true ∧
    (runMsgs msgs s).measurement_duration_s = s.measurement_duration_s ∧
    (msgs ≠ [] →
      (runMsgs msgs s).measurement_elapsed_s
        = ((s.measurement_sample_index + msgs.length - 1 : ℕ) : ℚ) * SAMPLE_PERIOD_S) := by
  induction msgs generalizing s with
  | nil => exact ⟨by simp [runMsgs], hmeas, rfl, fun h => absurd rfl h⟩
  | cons m t ih =>
    obtain ⟨a, ha⟩ := Option.isSome_iff_exists.mp (hacc m (List.mem_cons_self m t))
    have hstep := accepted_step s m a ha hmeas
    have hframe := mqtt_on_message_selFrame s m
    have hmeas1 : (mqtt_on_message s m).is_measuring = true := by
      rw [hframe.2.2.2.1]; exact hmeas
    have hacc1 : ∀ m2 ∈ t, (screen_message (mqtt_on_message s m).selected_sensors
        (mqtt_on_message s m).selected_channel_map m2).isSome = true := by
      intro m2 hm2
      rw [hframe.1, hframe.2.1]
      exact hacc m2 (List.mem_cons_of_mem m hm2)
    have ihr := ih (mqtt_on_message s m) hmeas1 hacc1
    have hrun : runMsgs (m :: t) s = runMsgs t (mqtt_on_message s m) := rfl
    rw [hrun]
    refine ⟨?_, ihr.2.1, ?_, ?_⟩
    · rw [ihr.1, hstep.1, List.length_cons]
      omega
    · rw [ihr.2.2.1, hframe.2.2.2.2.1]
    · intro _
      cases t with
      | nil =>
        have hnilrun : runMsgs ([] : List MqttMsg) (mqtt_on_message s m) = mqtt_on_message s m :=
          rfl
        rw [hnilrun, hstep.2]
        norm_num
      | cons m2 t2 =>
        rw [ihr.2.2.2 (List.cons_ne_nil m2 t2), hstep.1]
        have harith : (s.measurement_sample_index + 1 + (m2 :: t2).length - 1 : ℕ)
            = (s.measurement_sample_index + (m :: m2 :: t2).length - 1 : ℕ) := by
          simp only [List.length_cons]
          omega
        rw [harith]

theorem movMsg_accepted (sel : List String) (cmap : List (String × List String))
    (hsel : sel.contains "SensorMov" = true) :
    (screen_message sel cmap movMsg).isSome = true := by
  unfold screen_message movMsg
  dsimp only
  rw [if_neg (by norm_num [eqRoot])]
  rw [show (["EQ1", "SensorMov", "data"] : List String).getD 1 "" = "SensorMov" from rfl]
  rw [if_neg (by rw [hsel]; exact fun h2 => Bool.noConfusion h2)]
  rw [show (pyInt (pyGet movPayload "t_ms")).isNone = false from rfl]
  rw [if_neg (fun h2 => Bool.noConfusion h2)]
  rw [show ((get_profile "SensorMov").required_keys.any
      (fun rk => !(rk == "t_ms") && !(jhas movPayload rk))) = false from rfl]
  rw [if_neg (fun h2 => Bool.noConfusion h2)]
  rfl

theorem autostop_stops (s : AppState) (d : ℚ) (hmeas : s.is_measuring = true)
    (hdur : s.measurement_duration_s = some d) (h : d ≤ s.measurement_elapsed_s) :
    (update_plots_autostop s).is_measuring = false := by
  unfold update_plots_autostop stop_measurement
  rw [if_pos hmeas, hdur]
  dsimp only
  rw [if_pos h, if_pos hmeas]

theorem autostop_keeps_running (s : AppState) (d : ℚ) (hmeas : s.is_measuring = true)
    (hdur : s.measurement_duration_s = some d) (h : ¬ d ≤ s.measurement_elapsed_s) :
    (update_plots_autostop s).is_measuring = true := by
  unfold update_plots_autostop
  rw [if_pos hmeas, hdur]
  dsimp only
  rw [if_neg h]
  exact hmeas

/-! ### Claim C3 -/

/-- C3 (amended): starting from a freshly started session
(sampleIndex 0) with a 2.0-second duration limit and the global
0.25-second sample period, the code reaches `elapsedSeconds = 2.0` only
after the NINTH accepted sample — the relative time is computed before
the index is incremented, so after 8 accepted samples
`elapsedSeconds = 1.75` and the next periodic tick leaves the session
Running; after the 9th sample the next tick stops it. -/
theorem c3_auto_stop_after_nine (s : AppState)
    (h0 : s.measurement_sample_index = 0)
    (hdur : s.measurement_duration_s = some 2)
    (hmeas : s.is_measuring = true)
    (hsel : s.selected_sensors.contains "SensorMov" = true) :
    (runMsgs (List.replicate 9 movMsg) s).measurement_elapsed_s = 2 ∧
    (update_plots_autostop (runMsgs (List.replicate 9 movMsg) s)).is_measuring = false ∧
    (runMsgs (List.replicate 8 movMsg) s).measurement_elapsed_s = 7/4 ∧
    (update_plots_autostop (runMsgs (List.replicate 8 movMsg) s)).is_measuring = true := by
  have hacc : ∀ k : Nat, ∀ m ∈ List.replicate k movMsg,
      (screen_message s.selected_sensors s.selected_channel_map m).isSome = true := by
    intro k m hm
    rw [List.eq_of_mem_replicate hm]
    exact movMsg_accepted _ _ hsel
  obtain ⟨hi9, hm9, hd9, he9⟩ := accepted_run (List.replicate 9 movMsg) s hmeas (hacc 9)
  obtain ⟨hi8, hm8, hd8, he8⟩ := accepted_run (List.replicate 8 movMsg) s hmeas (hacc 8)
  have he9v : (runMsgs (List.replicate 9 movMsg) s).measurement_elapsed_s = 2 := by
    rw [he9 (by simp), h0, List.length_replicate]
    norm_num [SAMPLE_PERIOD_S]
  have he8v : (runMsgs (List.replicate 8 movMsg) s).measurement_elapsed_s = 7/4 := by
    rw [he8 (by simp), h0, List.length_replicate]
    norm_num [SAMPLE_PERIOD_S]
  refine ⟨he9v, ?_, he8v, ?_⟩
  · exact autostop_stops _ 2 hm9 (by rw [hd9, hdur]) (by rw [he9v])
  · exact autostop_keeps_running _ 2 hm8 (by rw [hd8, hdur]) (by rw [he8v]; norm_num)

/-- C3 witness: the amended behavior at the concrete fresh session. -/
theorem c3_auto_stop_after_nine_witness :
    (runMsgs (List.replicate 9 movMsg) measuringDemoState).measurement_elapsed_s = 2 ∧
    (update_plots_autostop
      (runMsgs (List.replicate 9 movMsg) measuringDemoState)).is_measuring = false ∧
    (runMsgs (List.replicate 8 movMsg) measuringDemoState).measurement_elapsed_s = 7/4 ∧
    (update_plots_autostop
      (runMsgs (List.replicate 8 movMsg) measuringDemoState)).is_measuring = true :=
  c3_auto_stop_after_nine measuringDemoState rfl rfl rfl rfl

/-- C3 counterexample: after exactly 8 accepted samples from the fresh
session with a 2.0-second limit, `elapsedSeconds` is 1.75 — not 2.0 —
and the next periodic tick does NOT stop the session, contradicting the
claim. -/
theorem c3_claim_counterexample :
    (runMsgs (List.replicate 8 movMsg) measuringDemoState).measurement_elapsed_s ≠ 2 ∧
    (update_plots_autostop
      (runMsgs (List.replicate 8 movMsg) measuringDemoState)).is_measuring = true := by
  have hacc : ∀ m ∈ List.replicate 8 movMsg,
      (screen_message measuringDemoState.selected_sensors
        measuringDemoState.selected_channel_map m).isSome = true := by
    intro m hm
    rw [List.eq_of_mem_replicate hm]
    exact movMsg_accepted _ _ rfl
  obtain ⟨hi8, hm8, hd8, he8⟩ := accepted_run (List.replicate 8 movMsg) measuringDemoState
    rfl hacc
  have he8v : (runMsgs (List.replicate 8 movMsg) measuringDemoState).measurement_elapsed_s
      = 7/4 := by
    rw [he8 (by simp), show measuringDemoState.measurement_sample_index = 0 from rfl,
      List.length_replicate]
    norm_num [SAMPLE_PERIOD_S]
  constructor
  · rw [he8v]
    norm_num
  · exact autostop_keeps_running _ 2 hm8 (by rw [hd8]; rfl) (by rw [he8v]; norm_num)

/-! ### Claim C5 -/

theorem buffersSynced_step (s : AppState) (m : MqttMsg)
    (hnd : s.current_metric_ids.Nodup) (hs : buffersSynced s) :
    buffersSynced (mqtt_on_message s m) := by
  unfold mqtt_on_message mqtt_on_message_core
  cases hscr : screen_message s.selected_sensors s.selected_channel_map m with
  | none => exact hs
  | some a =>
    dsimp only [Option.getD]
    cases hmeas : s.is_measuring with
    | false =>
      obtain ⟨_, _, hbt, hbv⟩ := ingest_fields_not_measuring a s hmeas
      intro mid hmid
      rw [(ingest_selFrame a s).2.2.1] at hmid
      obtain ⟨buf, hb, hl⟩ := hs mid hmid
      exact ⟨buf, by rw [hbv]; exact hb, by rw [hbt]; exact hl⟩
    | true =>
      obtain ⟨_, _, hbt, hbv⟩ := ingest_fields_measuring a s hmeas
      intro mid hmid
      rw [(ingest_selFrame a s).2.2.1] at hmid
      obtain ⟨buf, hb, hl⟩ := hs mid hmid
      have h1 := alookup_appendToBuffers_mem
        (fun mid =>
          match alookup a.prefixed_values mid with
          | some v => v
          | none =>
            (alookup (a.prefixed_values.foldl
                (fun lv (p : String × Option ℚ) => aset lv p.1 p.2) s.last_values) mid).getD none)
        s.current_metric_ids s.buf_values mid hnd hmid
      rw [hb] at h1
      refine ⟨_, by rw [hbv]; exact h1, ?_⟩
      rw [hbt, length_dappend, length_dappend, hl]

theorem buffersSynced_run (msgs : List MqttMsg) (s : AppState)
    (hnd : s.current_metric_ids.Nodup) (hs : buffersSynced s) :
    buffersSynced (runMsgs msgs s) := by
  induction msgs generalizing s with
  | nil => exact hs
  | cons m t ih =>
    have hnd1 : (mqtt_on_message s m).current_metric_ids.Nodup := by
      rw [(mqtt_on_message_selFrame s m).2.2.1]
      exact hnd
    exact ih (mqtt_on_message s m) hnd1 (buffersSynced_step s m hnd hs)

/-- C5 (amended): for sequences consisting of `onSample` calls alone,
the equal-length invariant is preserved: from any state whose active
metric ids are duplicate-free and whose buffers are synced, every
`mqtt_on_message` trace keeps `len(timeBuffer) = len(valueBuffer[m])`
for every active metric.  The original claim's stronger form — allowing
interleaved `ensure_metric_buffers` channel changes — is false (see the
counterexample): a channel change adds brand-new empty buffers next to a
nonempty time buffer. -/
theorem c5_equal_length_invariant (msgs : List MqttMsg) (s : AppState)
    (hnd : s.current_metric_ids.Nodup) (hs : buffersSynced s) :
    buffersSynced (runMsgs msgs s) :=
  buffersSynced_run msgs s hnd hs

/-- C5 witness: two accepted samples from the fresh session preserve the
equal-length invariant. -/
theorem c5_equal_length_invariant_witness :
    buffersSynced (runMsgs [movMsg, movMsg] measuringDemoState) :=
  c5_equal_length_invariant [movMsg, movMsg] measuringDemoState (by decide)
    (by
      intro mid hmid
      simp only [measuringDemoState, movMids] at hmid
      fin_cases hmid <;> exact ⟨[], rfl, rfl⟩)

/-- C5 counterexample: interleaving a channel-map change breaks the
invariant — after one accepted sample (time buffer length 1), enabling
the velocity channel creates an empty buffer for an active metric, so
the equal-length invariant fails at that point. -/
theorem c5_claim_counterexample :
    "SensorMov:vel_m_s" ∈ c5BrokenState.current_metric_ids ∧
    alookup c5BrokenState.buf_values "SensorMov:vel_m_s" = some [] ∧
    c5BrokenState.buf_t_s.length = 1 ∧
    ¬ buffersSynced c5BrokenState := by
  refine ⟨by decide, rfl, rfl, ?_⟩
  intro h
  obtain ⟨buf, hb, hl⟩ := h "SensorMov:vel_m_s" (by decide)
  have hb2 : buf = [] :=
    Option.some_inj.mp
      (hb.symm.trans (show alookup c5BrokenState.buf_values "SensorMov:vel_m_s" = some [] from
        rfl))
  rw [hb2] at hl
  have h01 : (0 : Nat) = 1 :=
    hl.trans (show c5BrokenState.buf_t_s.length = 1 from rfl)
  exact absurd h01 (by decide)

/-! ### Forward-fill cache tracking (claim C7) -/

theorem string_append_left_cancel (a : String) : Function.Injective (fun x => a ++ x) := by
  intro x y h
  have h0 : a ++ x = a ++ y := h
  have hd : (a ++ x).data = (a ++ y).data := by rw [h0]
  rw [String.data_append, String.data_append] at hd
  have h2 := List.append_cancel_left hd
  cases x with
  | mk dx => cases y with
    | mk dy => exact congrArg String.mk h2

theorem profile_metric_ids_nodup (sn : String) :
    ((get_profile sn).metrics.map MetricDef.id).Nodup := by
  unfold get_profile
  split_ifs <;> decide

theorem values_keys_sublist (metrics : List MetricDef) (g : MetricDef → Bool)
    (j : List (String × PyVal)) (acc : List (String × Option ℚ)) :
    ∃ rest,
      ((metrics.foldl
        (fun acc mm =>
          if g mm = true then acc ++ [(mm.id, scaledVal j mm)] else acc) acc).map Prod.fst)
        = acc.map Prod.fst ++ rest ∧
      rest.Sublist (metrics.map MetricDef.id) := by
  induction metrics generalizing acc with
  | nil => exact ⟨[], by simp, by simp⟩
  | cons mm t ih =>
    rw [List.foldl_cons]
    by_cases hc : g mm = true
    · rw [if_pos hc]
      obtain ⟨rest, h1, h2⟩ := ih (acc ++ [(mm.id, scaledVal j mm)])
      exact ⟨mm.id :: rest, by simpa [List.map_append] using h1,
        by rw [List.map_cons]; exact h2.cons₂ mm.id⟩
    · rw [if_neg hc]
      obtain ⟨rest, h1, h2⟩ := ih acc
      exact ⟨rest, h1, by rw [List.map_cons]; exact h2.cons mm.id⟩

theorem prefixed_keys_nodup_of (sn : String) (vals : List (String × Option ℚ))
    (hv : (vals.map Prod.fst).Nodup) :
    ((vals.map (fun p => (sn ++ ":" ++ p.1, p.2))).map Prod.fst).Nodup := by
  have hmm : (vals.map (fun p => (sn ++ ":" ++ p.1, p.2))).map Prod.fst
      = (vals.map Prod.fst).map (fun x => (sn ++ ":") ++ x) := by
    rw [List.map_map, List.map_map]
    rfl
  rw [hmm]
  exact hv.map (string_append_left_cancel (sn ++ ":"))

theorem screen_prefixed_keys_nodup (sel : List String) (cmap : List (String × List String))
    (m : MqttMsg) (a : Accepted) (h : screen_message sel cmap m = some a) :
    (a.prefixed_values.map Prod.fst).Nodup := by
  unfold screen_message at h
  dsimp only at h
  split at h
  · cases h
  · split at h
    · cases h
    · split at h
      · cases h
      · split at h
        · cases h
        · split at h
          · cases h
          · rename_i x j heq hnn hrq
            rw [← Option.some_inj.mp h]
            dsimp only
            apply prefixed_keys_nodup_of
            obtain ⟨rest, h1, h2⟩ := values_keys_sublist
              (get_profile (m.topic.getD 1 "")).metrics
              (fun mm => channel_selected (alookup cmap (m.topic.getD 1 "")) mm.id) j []
            have h1n : ((get_profile (m.topic.getD 1 "")).metrics.foldl
                (fun acc mm =>
                  if channel_selected (alookup cmap (m.topic.getD 1 "")) mm.id = true then
                    acc ++ [(mm.id, scaledVal j mm)]
                  else acc) []).map Prod.fst = rest := by
              simpa using h1
            rw [h1n]
            exact h2.nodup (profile_metric_ids_nodup _)

theorem cache_step (s : AppState) (m : MqttMsg) (mid : String) :
    alookup (mqtt_on_message s m).last_values mid =
      (alookup (producedOf s.selected_sensors s.selected_channel_map m) mid).or
        (alookup s.last_values mid) := by
  unfold mqtt_on_message mqtt_on_message_core producedOf
  cases hscr : screen_message s.selected_sensors s.selected_channel_map m with
  | none => rfl
  | some a =>
    dsimp only [Option.getD]
    rw [ingest_last_values]
    exact alookup_foldl_aset a.prefixed_values s.last_values mid
      (screen_prefixed_keys_nodup _ _ _ _ hscr)

theorem cache_run (msgs : List MqttMsg) (s : AppState) (mid : String) (acc : Option (Option ℚ))
    (hinit : alookup s.last_values mid = some (acc.getD none)) :
    alookup (runMsgs msgs s).last_values mid =
      some ((msgs.foldl
        (fun acc m =>
          (alookup (producedOf s.selected_sensors s.selected_channel_map m) mid).or acc)
        acc).getD none) := by
  induction msgs generalizing s acc with
  | nil => simpa [runMsgs] using hinit
  | cons m t ih =>
    have hstep := cache_step s m mid
    have hframe := mqtt_on_message_selFrame s m
    have hrun : runMsgs (m :: t) s = runMsgs t (mqtt_on_message s m) := rfl
    rw [hrun, List.foldl_cons]
    have hinit1 : alookup (mqtt_on_message s m).last_values mid =
        some (((alookup (producedOf s.selected_sensors s.selected_channel_map m) mid).or
          acc).getD none) := by
      rw [hstep]
      cases alookup (producedOf s.selected_sensors s.selected_channel_map m) mid with
      | none => exact hinit
      | some v => rfl
    have hres := ih (mqtt_on_message s m)
      ((alookup (producedOf s.selected_sensors s.selected_channel_map m) mid).or acc) hinit1
    rw [hframe.1, hframe.2.1] at hres
    exact hres

/-! ### Claim C7 -/

/-- C7: forward-fill.  Starting from a state whose cache entry for a
metric is cleared (`None`), run any message trace and then accept a
message `m` while Running.  For every active metric `mid` that `m` did
not produce this tick (in particular every metric of a second sensor
that did not publish), the value appended to `mid`'s buffer is exactly
the most recent cached value: the value produced for `mid` by the
latest accepted message of the trace, or `None` if no message in the
trace produced it. -/
theorem c7_forward_fill (s0 : AppState) (msgs : List MqttMsg) (m : MqttMsg) (mid : String)
    (a : Accepted)
    (hclean : alookup s0.last_values mid = some none)
    (hs : screen_message (runMsgs msgs s0).selected_sensors
      (runMsgs msgs s0).selected_channel_map m = some a)
    (hmeas : (runMsgs msgs s0).is_measuring = true)
    (hmid : mid ∈ (runMsgs msgs s0).current_metric_ids)
    (hnd : (runMsgs msgs s0).current_metric_ids.Nodup)
    (hbuf : (alookup (runMsgs msgs s0).buf_values mid).isSome = true)
    (hnp : alookup a.prefixed_values mid = none) :
    ∃ buf, alookup (mqtt_on_message (runMsgs msgs s0) m).buf_values mid = some buf ∧
      buf.getLast? = some ((latestProduced s0.selected_sensors s0.selected_channel_map
        msgs mid).getD none) := by
  unfold mqtt_on_message mqtt_on_message_core
  rw [hs]
  dsimp only [Option.getD]
  obtain ⟨_, _, _, hbv⟩ := ingest_fields_measuring a (runMsgs msgs s0) hmeas
  obtain ⟨buf, hb⟩ := Option.isSome_iff_exists.mp hbuf
  have h1 := alookup_appendToBuffers_mem
    (fun mid =>
      match alookup a.prefixed_values mid with
      | some v => v
      | none =>
        (alookup (a.prefixed_values.foldl
            (fun lv (p : String × Option ℚ) => aset lv p.1 p.2)
            (runMsgs msgs s0).last_values) mid).getD none)
    (runMsgs msgs s0).current_metric_ids (runMsgs msgs s0).buf_values mid hnd hmid
  rw [hb] at h1
  refine ⟨_, by rw [hbv]; exact h1, ?_⟩
  rw [getLast?_dappend]
  have hnotin : ∀ p ∈ a.prefixed_values, p.1 ≠ mid := by
    intro p hp heq
    have hsk : (alookup a.prefixed_values mid).isSome = true := by
      rw [← hasKey_eq_isSome]
      exact List.any_eq_true.mpr ⟨p, hp, decide_eq_true heq⟩
    rw [hnp] at hsk
    cases hsk
  have hpres : alookup (a.prefixed_values.foldl
      (fun lv (p : String × Option ℚ) => aset lv p.1 p.2)
      (runMsgs msgs s0).last_values) mid = alookup (runMsgs msgs s0).last_values mid :=
    alookup_foldl_aset_not_mem _ _ _ hnotin
  have hcache := cache_run msgs s0 mid none hclean
  dsimp only
  rw [hnp]
  dsimp only
  rw [hpres, hcache]
  rfl

/-- C7 witness: SensorLux publishes once (Lux = 5), then SensorMov
publishes while SensorLux stays silent; the value appended to
SensorLux's buffer on SensorMov's tick is SensorLux's cached value from
its earlier message. -/
theorem c7_forward_fill_witness :
    ∃ buf, alookup (mqtt_on_message (runMsgs [luxMsg] twoSensorState) movMsg).buf_values
        "SensorLux:Lux" = some buf ∧
      buf.getLast? = some ((latestProduced twoSensorState.selected_sensors
        twoSensorState.selected_channel_map [luxMsg] "SensorLux:Lux").getD none) :=
  c7_forward_fill twoSensorState [luxMsg] movMsg "SensorLux:Lux" movAccepted rfl rfl rfl
    (by decide) (by decide) rfl rfl

/-! ### Subscription diff (claim C8) -/

theorem mem_prefixed_ids (u : List String) (x : String) :
    x ∈ prefixed_ids u ↔
      ∃ nm ∈ u, x ∈ (get_metric_ids nm).map (fun mid => nm ++ ":" ++ mid) := by
  rw [prefixed_ids, foldl_append_flatMap, List.nil_append, List.mem_flatMap]

theorem set_current_sensors_spec (sensors : List String) (s : AppState)
    (h : sensors.isEmpty = false) :
    (set_current_sensors sensors s).1.selected_sensors = normalize_sensors sensors ∧
    (set_current_sensors sensors s).1.current_topics
      = (normalize_sensors sensors).map (fun nm => (nm, topic_for nm)) ∧
    (∀ mid ∈ prefixed_ids (normalize_sensors sensors),
      (alookup (set_current_sensors sensors s).1.buf_values mid).isSome = true) ∧
    (∀ p ∈ (set_current_sensors sensors s).1.buf_values,
      p.1 ∈ prefixed_ids (normalize_sensors sensors)) ∧
    (∀ mid ∈ prefixed_ids (normalize_sensors sensors),
      (alookup (set_current_sensors sensors s).1.last_values mid).isSome = true) ∧
    (∀ p ∈ (set_current_sensors sensors s).1.last_values,
      p.1 ∈ prefixed_ids (normalize_sensors sensors)) ∧
    (set_current_sensors sensors s).1.mqtt_client = s.mqtt_client := by
  unfold set_current_sensors
  rw [if_neg (by rw [h]; exact fun h2 => Bool.noConfusion h2)]
  dsimp only
  unfold ensure_metric_buffers
  dsimp only
  refine ⟨rfl, rfl, ?_, ?_, ?_, ?_, ?_⟩
  · intro mid hmid
    rw [alookup_filter_key,
      if_pos ((contains_eq_true_iff _ mid).mpr hmid),
      alookup_addfold_mem _ _ _ _ hmid]
    rfl
  · intro p hp
    exact (contains_eq_true_iff _ p.1).mp (List.mem_filter.mp hp).2
  · intro mid hmid
    rw [alookup_filter_key,
      if_pos ((contains_eq_true_iff _ mid).mpr hmid),
      alookup_addfold_mem _ _ _ _ hmid]
    rfl
  · intro p hp
    exact (contains_eq_true_iff _ p.1).mp (List.mem_filter.mp hp).2
  · split <;> rfl

theorem scs_second_call (P : List String) (s1 : AppState) (u1 : List String)
    (hPf : P.isEmpty = false)
    (hsel1 : s1.selected_sensors = u1)
    (htop1 : s1.current_topics = u1.map (fun nm => (nm, topic_for nm)))
    (hbvS : ∀ mid ∈ prefixed_ids u1, (alookup s1.buf_values mid).isSome = true)
    (hbvK : ∀ p ∈ s1.buf_values, p.1 ∈ prefixed_ids u1)
    (hlvS : ∀ mid ∈ prefixed_ids u1, (alookup s1.last_values mid).isSome = true)
    (hlvK : ∀ p ∈ s1.last_values, p.1 ∈ prefixed_ids u1)
    (hmemN : ∀ x, x ∈ u1 ↔ x ∈ normalize_sensors P) :
    (set_current_sensors P s1).2 = [] ∧
    (set_current_sensors P s1).1.series_data = s1.series_data ∧
    (set_current_sensors P s1).1.series_counter = s1.series_counter ∧
    (set_current_sensors P s1).1.buf_t_s = s1.buf_t_s ∧
    (set_current_sensors P s1).1.buf_values = s1.buf_values ∧
    (set_current_sensors P s1).1.last_values = s1.last_values ∧
    (set_current_sensors P s1).1.is_measuring = s1.is_measuring ∧
    (set_current_sensors P s1).1.measurement_sample_index = s1.measurement_sample_index ∧
    (set_current_sensors P s1).1.measurement_elapsed_s = s1.measurement_elapsed_s ∧
    (set_current_sensors P s1).1.measurement_duration_s = s1.measurement_duration_s := by
  have hmemI : ∀ x, x ∈ prefixed_ids u1 ↔ x ∈ prefixed_ids (normalize_sensors P) := by
    intro x
    rw [mem_prefixed_ids, mem_prefixed_ids]
    constructor
    · rintro ⟨nm, h1, h2⟩
      exact ⟨nm, (hmemN nm).mp h1, h2⟩
    · rintro ⟨nm, h1, h2⟩
      exact ⟨nm, (hmemN nm).mpr h1, h2⟩
  have hsetEq : listSetEq s1.selected_sensors (normalize_sensors P) = true := by
    rw [hsel1]
    exact (listSetEq_iff _ _).mpr ⟨fun x hx => (hmemN x).mp hx, fun x hx => (hmemN x).mpr hx⟩
  unfold set_current_sensors
  rw [if_neg (by rw [hPf]; exact fun h2 => Bool.noConfusion h2)]
  dsimp only
  rw [if_pos hsetEq]
  unfold ensure_metric_buffers
  dsimp only
  have haddbv : List.foldl
      (fun bv mid => if hasKey bv mid = true then bv else bv ++ [(mid, ([] : List (Option ℚ)))])
      s1.buf_values (prefixed_ids (normalize_sensors P)) = s1.buf_values :=
    addfold_eq_of_present _ _ _ (fun i hi => hbvS i ((hmemI i).mpr hi))
  have haddlv : List.foldl
      (fun lv mid => if hasKey lv mid = true then lv else lv ++ [(mid, (none : Option ℚ))])
      s1.last_values (prefixed_ids (normalize_sensors P)) = s1.last_values :=
    addfold_eq_of_present _ _ _ (fun i hi => hlvS i ((hmemI i).mpr hi))
  rw [haddbv, haddlv]
  have hfiltbv : List.filter (fun p => (prefixed_ids (normalize_sensors P)).contains p.1)
      s1.buf_values = s1.buf_values :=
    List.filter_eq_self.mpr
      (fun p hp => (contains_eq_true_iff _ _).mpr ((hmemI p.1).mp (hbvK p hp)))
  have hfiltlv : List.filter (fun p => (prefixed_ids (normalize_sensors P)).contains p.1)
      s1.last_values = s1.last_values :=
    List.filter_eq_self.mpr
      (fun p hp => (contains_eq_true_iff _ _).mpr ((hmemI p.1).mp (hlvK p hp)))
  rw [hfiltbv, hfiltlv]
  refine ⟨?_, rfl, rfl, rfl, rfl, rfl, rfl, rfl, rfl, rfl⟩
  by_cases hmc : s1.mqtt_client = true
  · rw [if_pos hmc]
    have hu : List.filter
        (fun t => decide (t ≠ "" ∧
          (((normalize_sensors P).map (fun nm => (nm, topic_for nm))).map Prod.snd).contains t
            = false))
        (s1.current_topics.map Prod.snd) = [] := by
      apply List.filter_eq_nil_iff.mpr
      intro t ht
      rw [htop1, List.map_map] at ht
      obtain ⟨nm, hnm, rfl⟩ := List.mem_map.mp ht
      intro hdec
      rw [decide_eq_true_eq] at hdec
      have hcontains : (((normalize_sensors P).map
          (fun nm => (nm, topic_for nm))).map Prod.snd).contains
            ((Prod.snd ∘ fun nm => (nm, topic_for nm)) nm) = true := by
        rw [List.map_map]
        exact (contains_eq_true_iff _ _).mpr (List.mem_map_of_mem _ ((hmemN nm).mp hnm))
      rw [hcontains] at hdec
      exact Bool.noConfusion hdec.2
    have hv : List.filter
        (fun p => decide (p.2 ≠ "" ∧ (s1.current_topics.map Prod.snd).contains p.2 = false))
        ((normalize_sensors P).map (fun nm => (nm, topic_for nm))) = [] := by
      apply List.filter_eq_nil_iff.mpr
      intro p hp
      obtain ⟨nm, hnm, rfl⟩ := List.mem_map.mp hp
      intro hdec
      rw [decide_eq_true_eq] at hdec
      have hcontains : (s1.current_topics.map Prod.snd).contains (topic_for nm) = true := by
        rw [htop1, List.map_map]
        exact (contains_eq_true_iff _ _).mpr (List.mem_map_of_mem _ ((hmemN nm).mpr hnm))
      rw [hcontains] at hdec
      exact Bool.noConfusion hdec.2
    rw [hu, hv]
    rfl
  · rw [if_neg hmc]

/-! ### Claim C8 -/

/-- C8: idempotent resubscription.  Calling `set_current_sensors` with a
list `L` and then again with any permutation of `L` issues zero
subscribe and zero unsubscribe calls on the second call, and the second
call performs no reset: the saved series, counter, every buffer, the
cache, and the whole measurement session survive unchanged. -/
theorem c8_idempotent_resubscription (L P : List String) (s : AppState) (hperm : L.Perm P) :
    (set_current_sensors P (set_current_sensors L s).1).2 = [] ∧
    (set_current_sensors P (set_current_sensors L s).1).1.series_data
      = (set_current_sensors L s).1.series_data ∧
    (set_current_sensors P (set_current_sensors L s).1).1.series_counter
      = (set_current_sensors L s).1.series_counter ∧
    (set_current_sensors P (set_current_sensors L s).1).1.buf_t_s
      = (set_current_sensors L s).1.buf_t_s ∧
    (set_current_sensors P (set_current_sensors L s).1).1.buf_values
      = (set_current_sensors L s).1.buf_values ∧
    (set_current_sensors P (set_current_sensors L s).1).1.last_values
      = (set_current_sensors L s).1.last_values ∧
    (set_current_sensors P (set_current_sensors L s).1).1.is_measuring
      = (set_current_sensors L s).1.is_measuring ∧
    (set_current_sensors P (set_current_sensors L s).1).1.measurement_sample_index
      = (set_current_sensors L s).1.measurement_sample_index ∧
    (set_current_sensors P (set_current_sensors L s).1).1.measurement_elapsed_s
      = (set_current_sensors L s).1.measurement_elapsed_s ∧
    (set_current_sensors P (set_current_sensors L s).1).1.measurement_duration_s
      = (set_current_sensors L s).1.measurement_duration_s := by
  by_cases hL : L.isEmpty = true
  · have hLnil : L = [] := by
      cases L with
      | nil => rfl
      | cons a t => cases hL
    subst hLnil
    have hPnil : P = [] := List.perm_nil.mp hperm.symm
    subst hPnil
    exact ⟨rfl, rfl, rfl, rfl, rfl, rfl, rfl, rfl, rfl, rfl⟩
  · have hLf : L.isEmpty = false := by
      cases hLb : L.isEmpty with
      | true => exact absurd hLb hL
      | false => rfl
    have hLne : L ≠ [] := fun h => hL (by rw [h]; rfl)
    have hPne : P ≠ [] := fun h => hLne (List.perm_nil.mp (h ▸ hperm))
    have hPf : P.isEmpty = false := by
      cases P with
      | nil => exact absurd rfl hPne
      | cons a t => rfl
    obtain ⟨hsel1, htop1, hbvS, hbvK, hlvS, hlvK, _⟩ := set_current_sensors_spec L s hLf
    have hmemN : ∀ x, x ∈ normalize_sensors L ↔ x ∈ normalize_sensors P := by
      intro x
      rw [mem_normalize_sensors, mem_normalize_sensors, hperm.mem_iff]
    exact scs_second_call P (set_current_sensors L s).1 (normalize_sensors L) hPf hsel1 htop1
      hbvS hbvK hlvS hlvK hmemN

/-- C8 witness: selecting SensorMov and SensorLux and then re-selecting
them in the opposite order issues no transport calls and keeps the
snapshot store and buffers of the first call's state. -/
theorem c8_idempotent_resubscription_witness :
    (set_current_sensors ["SensorLux", "SensorMov"]
      (set_current_sensors ["SensorMov", "SensorLux"] initState).1).2 = [] ∧
    (set_current_sensors ["SensorLux", "SensorMov"]
      (set_current_sensors ["SensorMov", "SensorLux"] initState).1).1.buf_values
      = (set_current_sensors ["SensorMov", "SensorLux"] initState).1.buf_values :=
  ⟨(c8_idempotent_resubscription ["SensorMov", "SensorLux"] ["SensorLux", "SensorMov"]
      initState (by decide)).1,
    (c8_idempotent_resubscription ["SensorMov", "SensorLux"] ["SensorLux", "SensorMov"]
      initState (by decide)).2.2.2.2.1⟩

/-! ### Snapshot-name uniqueness (claim C10) -/

theorem digitChar_inj_lt (a b : Nat) (ha : a < 10) (hb : b < 10)
    (h : Nat.digitChar a = Nat.digitChar b) : a = b := by
  have hfin : ∀ x y : Fin 10, Nat.digitChar x = Nat.digitChar y → (x : ℕ) = y := by decide
  exact hfin ⟨a, ha⟩ ⟨b, hb⟩ h

theorem map_digitChar_inj : ∀ (l1 l2 : List Nat), (∀ x ∈ l1, x < 10) → (∀ x ∈ l2, x < 10) →
    l1.map Nat.digitChar = l2.map Nat.digitChar → l1 = l2
  | [], [], _, _, _ => rfl
  | [], _ :: _, _, _, h => by cases h
  | _ :: _, [], _, _, h => by cases h
  | a :: t1, b :: t2, h1, h2, h => by
    rw [List.map_cons, List.map_cons] at h
    injection h with hh ht
    have hab := digitChar_inj_lt a b (h1 a (List.mem_cons_self a t1))
      (h2 b (List.mem_cons_self b t2)) hh
    have htt := map_digitChar_inj t1 t2 (fun x hx => h1 x (List.mem_cons_of_mem a hx))
      (fun x hx => h2 x (List.mem_cons_of_mem b hx)) ht
    rw [hab, htt]

theorem natRepr_succ_inj (a b : Nat) (h : natRepr (a + 1) = natRepr (b + 1)) : a = b := by
  unfold natRepr at h
  rw [if_neg (Nat.succ_ne_zero a), if_neg (Nat.succ_ne_zero b)] at h
  have hdata : ((Nat.digits 10 (a + 1)).map Nat.digitChar).reverse
      = ((Nat.digits 10 (b + 1)).map Nat.digitChar).reverse := congrArg String.data h
  have hrev := List.reverse_injective hdata
  have hdig := map_digitChar_inj _ _
    (fun x hx => Nat.digits_lt_base (by norm_num) hx)
    (fun x hx => Nat.digits_lt_base (by norm_num) hx) hrev
  have hoff := congrArg (Nat.ofDigits 10) hdig
  rw [Nat.ofDigits_digits, Nat.ofDigits_digits] at hoff
  omega

theorem serie_name_inj (a b : Nat)
    (h : "Serie " ++ natRepr (a + 1) = "Serie " ++ natRepr (b + 1)) : a = b :=
  natRepr_succ_inj a b (string_append_left_cancel "Serie " h)

theorem namesOK_of_eq (s s' : AppState) (hd : s'.series_data = s.series_data)
    (hc : s'.series_counter = s.series_counter) (h : namesOK s) : namesOK s' := by
  constructor
  · rw [hd, hc]
    exact h.1
  · rw [hd]
    exact h.2

theorem namesOK_scs (sensors : List String) (s : AppState) (h : namesOK s) :
    namesOK (set_current_sensors sensors s).1 := by
  unfold set_current_sensors
  by_cases he : sensors.isEmpty = true
  · rw [if_pos he]
    exact h
  · rw [if_neg he]
    dsimp only
    by_cases hb : listSetEq s.selected_sensors (normalize_sensors sensors) = true
    · rw [if_pos hb]
      exact h
    · rw [if_neg hb]
      exact ⟨rfl, rfl⟩

theorem clear_series_frame (b : Bool) (s : AppState) :
    (clear_current_measurement b s).series_data = s.series_data ∧
    (clear_current_measurement b s).series_counter = s.series_counter := by
  unfold clear_current_measurement
  dsimp only
  split <;> exact ⟨rfl, rfl⟩

theorem namesOK_save (mids : List String) (s : AppState) (h : namesOK s) :
    namesOK (save_series mids s).2 := by
  unfold save_series
  dsimp only
  by_cases he : s.buf_t_s.isEmpty = true
  · rw [if_pos he]
    exact h
  · rw [if_neg he]
    refine namesOK_of_eq _ _ (clear_series_frame true _).1 (clear_series_frame true _).2 ?_
    constructor
    · show s.series_counter + 1 = (s.series_data ++ [_]).length
      rw [List.length_append, h.1]
      rfl
    · show (s.series_data ++ [_]).map Series.name
        = (List.range (s.series_data ++ [_]).length).map
            (fun i => "Serie " ++ natRepr (i + 1))
      rw [List.map_append, List.length_append, h.2]
      rw [show s.series_data.length + ([(⟨"Serie " ++ natRepr (s.series_counter + 1), s.buf_t_s,
          mids.map (fun mid => (mid, (alookup s.buf_values mid).getD [])), mids⟩ : Series)]).length
          = Nat.succ s.series_data.length from rfl]
      rw [List.range_succ, List.map_append, h.1]
      rfl

theorem namesOK_applyOp (op : AppOp) (s : AppState) (h : namesOK s) :
    namesOK (applyOp op s) := by
  cases op with
  | opSetSensors sensors => exact namesOK_scs sensors s h
  | opSetSensor sensor =>
    show namesOK (set_current_sensor sensor s).1
    unfold set_current_sensor
    by_cases he : sensor = ""
    · rw [if_pos he]
      exact h
    · rw [if_neg he]
      exact namesOK_scs [sensor] s h
  | opEnsureBuffers mids => exact h
  | opMsg m =>
    have hfr := mqtt_on_message_selFrame s m
    exact namesOK_of_eq _ _ hfr.2.2.2.2.2.1 hfr.2.2.2.2.2.2.1 h
  | opSupervisorMsg t =>
    dsimp only [applyOp]
    refine namesOK_of_eq _ _ ?_ ?_ h <;>
      · unfold supervisor_on_message
        dsimp only
        repeat' split
        all_goals rfl
  | opPrune now => exact h
  | opStart => exact h
  | opStop =>
    dsimp only [applyOp]
    refine namesOK_of_eq _ _ ?_ ?_ h <;>
      · unfold stop_measurement
        split <;> rfl
  | opTick =>
    dsimp only [applyOp]
    refine namesOK_of_eq _ _ ?_ ?_ h <;>
      · unfold update_plots_autostop stop_measurement
        repeat' split
        all_goals rfl
  | opSave mids => exact namesOK_save mids s h
  | opClearAll => exact ⟨rfl, rfl⟩
  | opReset => exact ⟨rfl, rfl⟩
  | opClearMeasurement b =>
    dsimp only [applyOp]
    refine namesOK_of_eq _ _ ?_ ?_ h <;>
      · unfold clear_current_measurement
        dsimp only
        split <;> rfl
  | opConfigureTime v u =>
    dsimp only [applyOp]
    refine namesOK_of_eq _ _ ?_ ?_ h <;>
      · unfold configure_time
        dsimp only
        split <;> rfl
  | opDisplay v =>
    dsimp only [applyOp]
    refine namesOK_of_eq _ _ ?_ ?_ h <;>
      · unfold display_series
        dsimp only
        split <;> rfl
  | opConnect => exact h

theorem namesOK_runOps (ops : List AppOp) (s : AppState) (h : namesOK s) :
    namesOK (runOps ops s) := by
  induction ops generalizing s with
  | nil => exact h
  | cons op t ih => exact ih (applyOp op s) (namesOK_applyOp op s h)

theorem names_nodup_of_namesOK (s : AppState) (h : namesOK s) :
    (s.series_data.map Series.name).Nodup := by
  rw [h.2]
  exact (List.nodup_range _).map (fun a b hab => serie_name_inj a b hab)

/-! ### Claim C10 -/

/-- C10: snapshot-name uniqueness.  In every state reachable from the
initial state by any sequence of engine operations, the names of the
saved series are pairwise distinct: each save names the snapshot
`Serie N` from a counter that is incremented on every successful save
and reset to zero only together with emptying the snapshot list
(`clear_all`, `reset_all_state`, and the reset inside
`set_current_sensors`). -/
theorem c10_snapshot_names_distinct (ops : List AppOp) :
    ((runOps ops initState).series_data.map Series.name).Nodup :=
  names_nodup_of_namesOK _ (namesOK_runOps ops initState ⟨rfl, rfl⟩)
